import Mathlib

/-!
# Subnet Extraction and DHCP Reconciliation — verification development

Shallow embedding of the subnet-classification, config-extraction, vendor
dialect selection and DHCP reconciliation logic of this repository
(`dhcp_database.py`, `subnet_utils.py`, `archive/old_code/netshot_diagnostic.py`,
`test_diagnostic.py`), together with theorems settling the specification
claims about that logic.

Python strings are modelled as `String` / `List Char`; Python `int` values
are `Nat` (all values in these code paths are non-negative); Python lists
are `List`; values materialised through Python `set` objects are modelled
as `Finset String` (the source converts such sets back to lists in
unspecified iteration order, so the set view is the faithful abstraction);
fallible parses are `Option`.
-/

set_option autoImplicit false

/-! ## Character and decimal-string utilities -/

/-- The decimal digit character for `n < 10` (Python renders non-negative
integers with these digits). -/
def digitCh (n : Nat) : Char := Char.ofNat (48 + n)

/-- Structural worker for decimal rendering (the fuel argument only makes
the recursion structural; any fuel above the value itself is enough). -/
def decReprAux : Nat → Nat → List Char
  | 0, _ => []
  | fuel + 1, n =>
    if n < 10 then [digitCh n]
    else decReprAux fuel (n / 10) ++ [digitCh (n % 10)]

/-- Decimal rendering of a natural number as a character list, as Python
`str(n)` renders a non-negative `int`. -/
def decRepr (n : Nat) : List Char := decReprAux (n + 1) n

theorem decReprAux_congr : ∀ (n f1 f2 : Nat), n < f1 → n < f2 →
    decReprAux f1 n = decReprAux f2 n := by
  intro n
  induction n using Nat.strong_induction_on with
  | _ n ih =>
    intro f1 f2 h1 h2
    match f1, f2 with
    | g1 + 1, g2 + 1 =>
      show decReprAux (g1 + 1) n = decReprAux (g2 + 1) n
      simp only [decReprAux]
      by_cases hn : n < 10
      · simp [hn]
      · simp only [hn, if_false]
        have hd : n / 10 < n := Nat.div_lt_self (by omega) (by omega)
        rw [ih (n / 10) hd g1 g2 (by omega) (by omega)]

theorem decRepr_lt10 (n : Nat) (h : n < 10) : decRepr n = [digitCh n] := by
  simp [decRepr, decReprAux, h]

theorem decRepr_two (n : Nat) (h1 : 10 ≤ n) (h2 : n < 100) :
    decRepr n = [digitCh (n / 10), digitCh (n % 10)] := by
  have : decReprAux (n + 1) n = decReprAux n (n / 10) ++ [digitCh (n % 10)] := by
    simp [decReprAux, Nat.not_lt.mpr h1]
  rw [decRepr, this,
      decReprAux_congr (n / 10) n (n / 10 + 1) (by omega) (by omega),
      show decReprAux (n / 10 + 1) (n / 10) = decRepr (n / 10) from rfl,
      decRepr_lt10 (n / 10) (by omega)]
  rfl

theorem decRepr_three (n : Nat) (h1 : 100 ≤ n) (h2 : n < 1000) :
    decRepr n = [digitCh (n / 100), digitCh (n / 10 % 10), digitCh (n % 10)] := by
  have hstep : decReprAux (n + 1) n = decReprAux n (n / 10) ++ [digitCh (n % 10)] := by
    simp [decReprAux, Nat.not_lt.mpr (by omega : 10 ≤ n)]
  rw [decRepr, hstep,
      decReprAux_congr (n / 10) n (n / 10 + 1) (by omega) (by omega),
      show decReprAux (n / 10 + 1) (n / 10) = decRepr (n / 10) from rfl,
      decRepr_two (n / 10) (by omega) (by omega),
      show n / 10 / 10 = n / 100 by omega]
  rfl

/-- Parse a character list as a non-negative decimal integer: nonempty, all
digits.  Models Python `int(s)` on the digit-only token strings produced by
the extraction regexes (`\d+` match groups); on anything else it is `none`
(Python raises `ValueError`, which every caller catches). -/
def parseNatChars (cs : List Char) : Option Nat :=
  if cs ≠ [] ∧ cs.all Char.isDigit then
    some (cs.foldl (fun acc c => acc * 10 + (c.toNat - 48)) 0)
  else none

/-- Split a character list on a separator character; models Python
`str.split(sep)` for a one-character `sep` (`"".split(".") == [""]`,
`"a..b".split(".") == ["a","","b"]`). -/
def splitSep (sep : Char) : List Char → List (List Char)
  | [] => [[]]
  | c :: cs =>
    let rest := splitSep sep cs
    if c = sep then [] :: rest
    else match rest with
      | [] => [[c]]
      | r :: rs => (c :: r) :: rs

/-- Structural worker for `popcount` (fuel above the value is enough). -/
def popcountAux : Nat → Nat → Nat
  | 0, _ => 0
  | fuel + 1, n => if n = 0 then 0 else n % 2 + popcountAux fuel (n / 2)

/-- Number of set bits: models Python `bin(n).count('1')` for `n ≥ 0`. -/
def popcount (n : Nat) : Nat := popcountAux (n + 1) n

theorem popcountAux_congr : ∀ (n f1 f2 : Nat), n < f1 → n < f2 →
    popcountAux f1 n = popcountAux f2 n := by
  intro n
  induction n using Nat.strong_induction_on with
  | _ n ih =>
    intro f1 f2 h1 h2
    match f1, f2 with
    | g1 + 1, g2 + 1 =>
      show popcountAux (g1 + 1) n = popcountAux (g2 + 1) n
      simp only [popcountAux]
      by_cases hn : n = 0
      · simp [hn]
      · simp only [hn, if_false]
        have hd : n / 2 < n := Nat.div_lt_self (by omega) (by omega)
        rw [ih (n / 2) hd g1 g2 (by omega) (by omega)]

theorem popcount_zero : popcount 0 = 0 := rfl

theorem popcount_step (n : Nat) (h : n ≠ 0) :
    popcount n = n % 2 + popcount (n / 2) := by
  have : popcountAux (n + 1) n = n % 2 + popcountAux n (n / 2) := by
    simp [popcountAux, h]
  rw [popcount, this,
      popcountAux_congr (n / 2) n (n / 2 + 1)
        (Nat.div_lt_self (by omega) (by omega)) (by omega)]
  rfl

/-! ## `dhcp_database.is_public_ipv4` (same body appears in
`archive/old_code/netshot_diagnostic.py` and `test_diagnostic.py`)

```python
def is_public_ipv4(subnet_str):
    try:
        ip = subnet_str.split('/')[0]
        return not (ip.startswith('10.') or
                    re.match(r'^172\.(1[6-9]|2[0-9]|3[0-1])\.', ip) or
                    ip.startswith('192.168.') or
                    ip.startswith('198.18.'))
    except:
        return True  # If parsing fails, assume public
```
The `except` arm is unreachable for string input (`split` and `startswith`
never raise on a `str`), so the embedding is the `try` body. -/

/-- The two-character class `(1[6-9]|2[0-9]|3[0-1])` of the RFC1918
172.16/12 regex. -/
def class172 (c4 c5 : Char) : Bool :=
  (c4 == '1' && ('6' ≤ c5 && c5 ≤ '9')) ||
  (c4 == '2' && ('0' ≤ c5 && c5 ≤ '9')) ||
  (c4 == '3' && (c5 == '0' || c5 == '1'))

/-- `re.match(r'^172\.(1[6-9]|2[0-9]|3[0-1])\.', ip)`: anchored at position
0, the literal `172.`, then a two-digit token in 16-31, then a literal dot —
read off positionally: characters 0-3 are `1`,`7`,`2`,`.`, characters 4-5
satisfy the class, character 6 is `.` (a position beyond the end never
matches). -/
def matches172 (cs : List Char) : Bool :=
  (cs.get? 0 == some '1') && (cs.get? 1 == some '7') && (cs.get? 2 == some '2') &&
  (cs.get? 3 == some '.') &&
  (match cs.get? 4, cs.get? 5 with
   | some c4, some c5 => class172 c4 c5
   | _, _ => false) &&
  (cs.get? 6 == some '.')

/-- `dhcp_database.is_public_ipv4` on the characters of the input. -/
def is_public_ipv4_chars (cs : List Char) : Bool :=
  let ip := cs.takeWhile (· ≠ '/')   -- subnet_str.split('/')[0]
  !(['1', '0', '.'].isPrefixOf ip ||
    matches172 ip ||
    ['1', '9', '2', '.', '1', '6', '8', '.'].isPrefixOf ip ||
    ['1', '9', '8', '.', '1', '8', '.'].isPrefixOf ip)

/-- `dhcp_database.is_public_ipv4` (also the classifier of
`netshot_diagnostic.py` / `test_diagnostic.py`, whose bodies are identical). -/
def is_public_ipv4 (subnet_str : String) : Bool :=
  is_public_ipv4_chars subnet_str.data

example : is_public_ipv4 "203.0.113.0/24" = true := by decide
example : is_public_ipv4 "10.254.216.0/24" = false := by decide
example : is_public_ipv4 "172.31.0.0/16" = false := by decide
example : is_public_ipv4 "172.32.0.0/16" = true := by decide
example : is_public_ipv4 "192.168.1.0/24" = false := by decide
example : is_public_ipv4 "198.18.0.0/24" = false := by decide
example : is_public_ipv4 "198.19.0.0/24" = true := by decide

/-! ## `netshot_diagnostic.is_public_ipv6`

```python
def is_public_ipv6(ipv6):
    ipv6_lower = ipv6.lower()
    return not (ipv6_lower.startswith('fe80:') or
                ipv6_lower.startswith('fc00:') or
                ipv6_lower.startswith('fd00:'))
```
-/

/-- `netshot_diagnostic.is_public_ipv6`. -/
def is_public_ipv6 (ipv6 : String) : Bool :=
  let low := ipv6.data.map Char.toLower
  !(['f', 'e', '8', '0', ':'].isPrefixOf low ||
    ['f', 'c', '0', '0', ':'].isPrefixOf low ||
    ['f', 'd', '0', '0', ':'].isPrefixOf low)

example : is_public_ipv6 "2001:db8::" = true := by decide
example : is_public_ipv6 "FE80::1" = false := by decide
example : is_public_ipv6 "fd00:1::" = false := by decide

/-! ## `netshot_diagnostic.netmask_to_cidr` and `normalize_subnet`

```python
def netmask_to_cidr(netmask):
    try:
        return sum([bin(int(x)).count('1') for x in netmask.split('.')])
    except:
        return None

def normalize_subnet(ip, prefix):
    try:
        octets = [int(x) for x in ip.split('.')]
        mask_bits = int(prefix)
        mask = (0xFFFFFFFF << (32 - mask_bits)) & 0xFFFFFFFF
        ip_int = (octets[0] << 24) | (octets[1] << 16) | (octets[2] << 8) | octets[3]
        network_int = ip_int & mask
        network_octets = [(network_int >> 24) & 0xFF, (network_int >> 16) & 0xFF,
                          (network_int >> 8) & 0xFF, network_int & 0xFF]
        return f"{'.'.join(map(str, network_octets))}/{prefix}"
    except:
        return f"{ip}/{prefix}"
```
-/

/-- `netshot_diagnostic.netmask_to_cidr`: sum of the popcounts of the
dot-separated decimal fields; `none` when any field fails to parse as an
integer (no arity or range check — `"255"` alone yields `some 8`). -/
def netmask_to_cidr (netmask : String) : Option Nat :=
  ((splitSep '.' netmask.data).mapM parseNatChars).map
    (fun octets => (octets.map popcount).sum)

example : netmask_to_cidr "255.255.255.0" = some 24 := by decide
example : netmask_to_cidr "255.banana.0.0" = none := by decide
example : netmask_to_cidr "0.0.0.0" = some 0 := by decide

/-- Render `network_octets` joined by dots followed by `/prefix`, i.e. the
f-string on the success path of `normalize_subnet`. -/
def renderQuad (o0 o1 o2 o3 p : Nat) : String :=
  String.mk (decRepr o0 ++ '.' :: decRepr o1 ++ '.' :: decRepr o2 ++ '.' ::
             decRepr o3 ++ '/' :: decRepr p)

/-- `netshot_diagnostic.normalize_subnet`.  The `except` arm (returning the
raw `f"{ip}/{prefix}"`) is reached when any dot-field of `ip` fails `int()`,
when `ip` has fewer than four fields (the `octets[3]` lookup raises
`IndexError`), or when `prefix > 32` (a negative shift raises `ValueError`);
fields beyond the fourth are parsed but unused, exactly as in the source. -/
def normalize_subnet (ip : String) (pfxLen : Nat) : String :=
  match (splitSep '.' ip.data).mapM parseNatChars with
  | some (o0 :: o1 :: o2 :: o3 :: _) =>
    if pfxLen ≤ 32 then
      let mask := ((0xFFFFFFFF <<< (32 - pfxLen)) &&& 0xFFFFFFFF)
      let ip_int := (o0 <<< 24) ||| (o1 <<< 16) ||| (o2 <<< 8) ||| o3
      let network_int := ip_int &&& mask
      renderQuad ((network_int >>> 24) &&& 0xFF) ((network_int >>> 16) &&& 0xFF)
                 ((network_int >>> 8) &&& 0xFF) (network_int &&& 0xFF) pfxLen
    else String.mk (ip.data ++ '/' :: decRepr pfxLen)
  | _ => String.mk (ip.data ++ '/' :: decRepr pfxLen)

example : normalize_subnet "10.254.216.1" 24 = "10.254.216.0/24" := by decide
example : normalize_subnet "192.0.2.5" 24 = "192.0.2.0/24" := by decide
example : normalize_subnet "1.2.3" 8 = "1.2.3/8" := by decide

/-! ## `netshot_diagnostic.extract_ipv4_subnets`

```python
def extract_ipv4_subnets(text, result):
    ipv4_pattern = r'ip address (\d+\.\d+\.\d+\.\d+)\s+(\d+\.\d+\.\d+\.\d+)(\s+secondary)?'
    for match in re.finditer(ipv4_pattern, text):
        ip, mask, secondary = match.group(1), match.group(2), match.group(3)
        cidr_prefix = netmask_to_cidr(mask)
        if cidr_prefix:
            subnet = normalize_subnet(ip, cidr_prefix)
            if not secondary and "primary_subnet" not in result:
                result["primary_subnet"] = subnet
            if is_public_ipv4(ip):
                result["ipv4_subnets"].append(subnet)
```
The E6000 arm of `diagnose` (lines 145–159) runs the same per-match body
over a line-anchored variant of the pattern.  The embedding takes the list
of regex matches (in text order) as input: each match contributes the two
dotted digit-group strings and the truthiness of the optional `secondary`
group.  The mutable `result` dict becomes a fold state
`(primary_subnet : Option String, ipv4_subnets : List String)`. -/

/-- One IPv4 `ip address` match: groups 1, 2 and the truthiness of group 3. -/
structure Ipv4Line where
  ip : String
  mask : String
  secondary : Bool
deriving DecidableEq

/-- Python truthiness of `cidr_prefix` (`None` and `0` are falsy). -/
def truthyCidr : Option Nat → Bool
  | none => false
  | some n => !(n == 0)

/-- The normalized subnet a match contributes, or `none` when
`netmask_to_cidr` is falsy and the match is skipped. -/
def lineSubnet (l : Ipv4Line) : Option String :=
  match netmask_to_cidr l.mask with
  | some p => if p = 0 then none else some (normalize_subnet l.ip p)
  | none => none

/-- Loop body of `extract_ipv4_subnets` on one match. -/
def extract_ipv4_step (st : Option String × List String) (l : Ipv4Line) :
    Option String × List String :=
  match netmask_to_cidr l.mask with
  | none => st
  | some p =>
    if p = 0 then st
    else
      let subnet := normalize_subnet l.ip p
      let primary := match st.1 with
        | none => if l.secondary then none else some subnet
        | some s => some s
      let subnets := if is_public_ipv4 l.ip then st.2 ++ [subnet] else st.2
      (primary, subnets)

/-- `netshot_diagnostic.extract_ipv4_subnets` over the match list, starting
from a fresh `result` (no primary, empty subnet list). -/
def extract_ipv4_subnets (lines : List Ipv4Line) : Option String × List String :=
  lines.foldl extract_ipv4_step (none, [])

example :
    extract_ipv4_subnets
      [⟨"10.254.216.1", "255.255.255.0", false⟩,
       ⟨"192.0.2.5", "255.255.255.0", true⟩] =
    (some "10.254.216.0/24", ["192.0.2.0/24"]) := by decide

/-! ## `netshot_diagnostic.extract_ipv6_subnets`

```python
def extract_ipv6_subnets(text, result):
    ipv6_pattern = r'ipv6 address ([0-9a-fA-F:]+)/(\d+)'
    for match in re.finditer(ipv6_pattern, text):
        ipv6, prefix = match.group(1), match.group(2)
        if prefix == '56':
            prefix = '40'
        if is_public_ipv6(ipv6):
            result["ipv6_subnets"].append(f"{ipv6}/{prefix}")
```
Again the embedding takes the list of matches (address token, prefix-length
token, both strings). -/

/-- One IPv6 `ipv6 address` match: the address token and the prefix token. -/
structure Ipv6Line where
  addr : String
  pfx : String
deriving DecidableEq

/-- The `prefix == '56' → '40'` rewrite: a comparison of token strings. -/
def rewritePfx (p : String) : String := if p = "56" then "40" else p

/-- `netshot_diagnostic.extract_ipv6_subnets` over the match list. -/
def extract_ipv6_subnets (lines : List Ipv6Line) : List String :=
  lines.foldl
    (fun acc l =>
      if is_public_ipv6 l.addr then acc ++ [l.addr ++ "/" ++ rewritePfx l.pfx]
      else acc) []

example :
    extract_ipv6_subnets [⟨"2001:db8:100::", "56"⟩, ⟨"fe80::1", "64"⟩] =
    ["2001:db8:100::/40"] := by decide

/-! ## Vendor dialect selection (`netshot_diagnostic.diagnose`, lines 111–127;
`test_diagnostic.diagnose_test` has the identical cascade)

```python
    if re.match(r'^.*(CCAP1\d{2}|CBR\d{2}).*$', device_name, re.IGNORECASE):
        vendor = 'Casa 100G';        interface_name = 'ip-bundle 1'
    elif re.match(r'^.*CCAPV\d{3}.*$', device_name, re.IGNORECASE):
        vendor = 'Commscope EVO';    interface_name = 'ip-bundle 1'
    elif re.match(r'^.*(CCAP0\d{2}|DBR\d{2}).*$', device_name, re.IGNORECASE):
        vendor = 'Commscope E6000';  interface_name = 'cable-mac 1.0'
    else:
        vendor = 'Cisco IOS/IOS-XE'; interface_name = 'Bundle1'
```

Semantics of `re.match(r'^.*(T1|..|Tk).*$', s)` without `re.DOTALL` or
`re.MULTILINE`: the match is anchored at position 0, `.` matches any
character except `'\n'`, and `$` matches only at the end of the string or
just before a single newline that ends the string.  Hence the pattern
matches `s` iff `s = a ++ m ++ b ++ t` where `a` and `b` are `'\n'`-free,
`m` matches one of the alternation tokens (whose atoms are letters, fixed
digits and `\d`, none of which match `'\n'`), and `t` is `""` or `"\n"`.
Equivalently: after stripping at most one trailing newline, the remaining
characters contain no `'\n'` and contain an occurrence of some token.
`re.IGNORECASE` makes the letter atoms case-insensitive. -/

/-- One regex atom of the hostname tokens: a case-insensitive literal or `\d`. -/
inductive RAtom where
  | lit (c : Char)
  | digit
deriving DecidableEq

/-- Whether one atom matches one character (`re.IGNORECASE` literals). -/
def atomMatches (a : RAtom) (c : Char) : Bool :=
  match a with
  | .lit x => c.toLower == x.toLower
  | .digit => c.isDigit

/-- Whether a token matches a prefix of the character list. -/
def tokMatchAt : List RAtom → List Char → Bool
  | [], _ => true
  | _ :: _, [] => false
  | a :: as, c :: cs => atomMatches a c && tokMatchAt as cs

/-- Whether a token occurs anywhere in the character list. -/
def tokInChars (t : List RAtom) (cs : List Char) : Bool :=
  cs.tails.any (tokMatchAt t)

/-- Strip a single trailing newline, as Python's `$` permits. -/
def stripTrailNL (cs : List Char) : List Char :=
  if cs.getLast? = some '\n' then cs.dropLast else cs

/-- `re.match(r'^.*(T1|..|Tk).*$', s, re.IGNORECASE)` as a Boolean, per the
semantics derived above. -/
def reMatchAnchored (alts : List (List RAtom)) (s : String) : Bool :=
  let core := stripTrailNL s.data
  core.all (· != '\n') && alts.any (fun t => tokInChars t core)

/-- `CCAP1\d{2}`. -/
def tokCCAP1 : List RAtom :=
  [.lit 'C', .lit 'C', .lit 'A', .lit 'P', .lit '1', .digit, .digit]

/-- `CBR\d{2}`. -/
def tokCBR : List RAtom := [.lit 'C', .lit 'B', .lit 'R', .digit, .digit]

/-- `CCAPV\d{3}`. -/
def tokCCAPV : List RAtom :=
  [.lit 'C', .lit 'C', .lit 'A', .lit 'P', .lit 'V', .digit, .digit, .digit]

/-- `CCAP0\d{2}`. -/
def tokCCAP0 : List RAtom :=
  [.lit 'C', .lit 'C', .lit 'A', .lit 'P', .lit '0', .digit, .digit]

/-- `DBR\d{2}`. -/
def tokDBR : List RAtom := [.lit 'D', .lit 'B', .lit 'R', .digit, .digit]

/-- The vendor/interface cascade of `diagnose` / `diagnose_test`: returns
`(vendor, interface_name)`. -/
def selectVendor (device_name : String) : String × String :=
  if reMatchAnchored [tokCCAP1, tokCBR] device_name then
    ("Casa 100G", "ip-bundle 1")
  else if reMatchAnchored [tokCCAPV] device_name then
    ("Commscope EVO", "ip-bundle 1")
  else if reMatchAnchored [tokCCAP0, tokDBR] device_name then
    ("Commscope E6000", "cable-mac 1.0")
  else
    ("Cisco IOS/IOS-XE", "Bundle1")

example : selectVendor "ZNB-LC0001-CCAP105" = ("Casa 100G", "ip-bundle 1") := by decide
example : selectVendor "cbr12-edge" = ("Casa 100G", "ip-bundle 1") := by decide
example : selectVendor "X-CCAPV123" = ("Commscope EVO", "ip-bundle 1") := by decide
example : selectVendor "ZNB-LC0001-CCAP001" = ("Commscope E6000", "cable-mac 1.0") := by decide
example : selectVendor "DBR07" = ("Commscope E6000", "cable-mac 1.0") := by decide
example : selectVendor "RTR-EDGE-01" = ("Cisco IOS/IOS-XE", "Bundle1") := by decide

/-- The selection rule as the specification states it: plain case-insensitive
containment of the hostname tokens, with the same priority order — no newline
caveat.  Kept separate from `selectVendor` so the two can be compared. -/
def claimSelector (device_name : String) : String × String :=
  if tokInChars tokCCAP1 device_name.data || tokInChars tokCBR device_name.data then
    ("Casa 100G", "ip-bundle 1")
  else if tokInChars tokCCAPV device_name.data then
    ("Commscope EVO", "ip-bundle 1")
  else if tokInChars tokCCAP0 device_name.data || tokInChars tokDBR device_name.data then
    ("Commscope E6000", "cable-mac 1.0")
  else
    ("Cisco IOS/IOS-XE", "Bundle1")

/-! ## `DHCPDatabase.validate_device_dhcp` (`dhcp_database.py`, lines 171–285)

The method issues up to two pairs of registry reads:
`get_scopes_by_primary(primary_subnet)` (rows of table `scopesnew`, of which
only the `scope` column is interpreted) and
`get_ipv6_scopes_by_hostname(device_name)` (rows of `ipv6scopesnew`, of
which only `prefixname` is interpreted); when the initial scope count is
`<= 1` each query is issued a second time.  The embedding therefore takes
the rows answered by the first pair of reads (`rows4`, `rows6`) and by the
retry pair (`retry4`, `retry6`) as parameters — a stateful registry may
answer the retry differently.

`result['missing_in_dhcp']`, `extra_in_dhcp`, `matched`,
`ipv6_missing_in_dhcp` and `ipv6_matched` are produced from Python `set`
differences and materialised as lists in unspecified set-iteration order;
those fields are modelled as `Finset String`. -/

/-- A row of `scopesnew` as used by the validator (only `scope` is read;
`primscope` is the query key). -/
structure ScopeRow where
  scope : String
  primscope : String
deriving DecidableEq

/-- A row of `ipv6scopesnew` as used by the validator (only `prefixname`,
modelled as `pfxName`, is read). -/
structure V6Row where
  pfxName : String
deriving DecidableEq

/-- Left-to-right non-overlapping removal of every occurrence of `-PD`,
i.e. Python `p.replace('-PD', '')`. -/
def stripPD : List Char → List Char
  | '-' :: 'P' :: 'D' :: rest => stripPD rest
  | c :: rest => c :: stripPD rest
  | [] => []

/-- `base_prefix = prefix.replace('-PD', '') if prefix.endswith('-PD') else prefix`.
Note the source strips every occurrence of `-PD` (not only the trailing one)
whenever the name merely ends in `-PD`. -/
def basePfx (p : String) : String :=
  if ['-', 'P', 'D'].isSuffixOf p.data then String.mk (stripPD p.data) else p

example : basePfx "SITE-A-PD" = "SITE-A" := by decide
example : basePfx "SITE-A" = "SITE-A" := by decide

/-- The `seen_prefixes` / `unique_ipv6_scopes` loop: keep the first record
of each base prefix name. -/
def dedupV6Aux : List String → List V6Row → List V6Row
  | _, [] => []
  | seen, r :: rs =>
    let b := basePfx r.pfxName
    if seen.contains b then dedupV6Aux seen rs
    else r :: dedupV6Aux (b :: seen) rs

/-- Deduplicate IPv6 rows by base prefix name (first record wins). -/
def dedupV6 (rows : List V6Row) : List V6Row := dedupV6Aux [] rows

example : dedupV6 [⟨"SITE-A"⟩, ⟨"SITE-A-PD"⟩] = [⟨"SITE-A"⟩] := by decide

/-- `[s for s in dhcp_scopes if is_public_ipv4(s['scope']) and s['scope'] != primary_subnet]`. -/
def filterPublicScopes (rows : List ScopeRow) (primary : String) : List ScopeRow :=
  rows.filter (fun s => is_public_ipv4 s.scope && s.scope != primary)

/-- The validation result dict.  Set-valued fields are `Finset String` (see
the section comment); `dhcp_scopes` / `dhcp_ipv6_scopes` hold the raw rows
the validator settled on (the retried rows when the retry was adopted). -/
structure ValidationResult where
  has_dhcp : Bool
  dhcp_scopes : List ScopeRow
  dhcp_scopes_count : Nat
  dhcp_ipv6_scopes : List V6Row
  missing_in_dhcp : Finset String
  extra_in_dhcp : Finset String
  matched : Finset String
  ipv6_missing_in_dhcp : Finset String
  ipv6_matched : Finset String
deriving DecidableEq

/-- The initial `result` dict, returned unchanged when `primary_subnet` is
falsy. -/
def emptyValidation : ValidationResult where
  has_dhcp := false
  dhcp_scopes := []
  dhcp_scopes_count := 0
  dhcp_ipv6_scopes := []
  missing_in_dhcp := ∅
  extra_in_dhcp := ∅
  matched := ∅
  ipv6_missing_in_dhcp := ∅
  ipv6_matched := ∅

/-- Lines 263–285 of `validate_device_dhcp`, applied to whichever rows the
retry logic settled on: count, `has_dhcp`, and the IPv4/IPv6 set algebra. -/
def buildResult (primary : String) (pub4 pub6 : List String)
    (rows4 : List ScopeRow) (rows6 : List V6Row) : ValidationResult :=
  let publicScopes := filterPublicScopes rows4 primary
  let uniq6 := dedupV6 rows6
  let count := publicScopes.length + uniq6.length
  let hasD : Bool := count > 0
  let netshotSet := pub4.toFinset
  let scopeSet := (publicScopes.map (·.scope)).toFinset
  let netshot6 := pub6.toFinset
  -- NOTE the IPv6 comparison uses the raw rows, not `uniq6`.
  let dhcp6Set := (rows6.map (·.pfxName)).toFinset
  { has_dhcp := hasD
    dhcp_scopes := rows4
    dhcp_scopes_count := count
    dhcp_ipv6_scopes := rows6
    missing_in_dhcp := if hasD then netshotSet \ scopeSet else netshotSet
    extra_in_dhcp := if hasD then scopeSet \ netshotSet else ∅
    matched := if hasD then netshotSet ∩ scopeSet else ∅
    ipv6_missing_in_dhcp := if rows6.isEmpty then netshot6 else netshot6 \ dhcp6Set
    ipv6_matched := if rows6.isEmpty then ∅ else netshot6 ∩ dhcp6Set }

/-- `DHCPDatabase.validate_device_dhcp`.  `primary_subnet` is optional and
Python-falsy when `none` or the empty string; `_device_name` keys the IPv6
query, whose answers are the explicit `rows6` / `retry6` parameters. -/
def validate_device_dhcp (_device_name : String) (primary_subnet : Option String)
    (public_ipv4_subnets public_ipv6_subnets : List String)
    (rows4 : List ScopeRow) (rows6 : List V6Row)
    (retry4 : List ScopeRow) (retry6 : List V6Row) : ValidationResult :=
  match primary_subnet with
  | none => emptyValidation
  | some primary =>
    if primary.data.isEmpty then emptyValidation
    else
      let scope_count :=
        (filterPublicScopes rows4 primary).length + (dedupV6 rows6).length
      if scope_count ≤ 1 then
        let retry_count :=
          (filterPublicScopes retry4 primary).length + (dedupV6 retry6).length
        if retry_count > scope_count then
          buildResult primary public_ipv4_subnets public_ipv6_subnets retry4 retry6
        else
          buildResult primary public_ipv4_subnets public_ipv6_subnets rows4 rows6
      else
        buildResult primary public_ipv4_subnets public_ipv6_subnets rows4 rows6

example :
    (validate_device_dhcp "cmts" (some "192.0.2.0/24") ["203.0.113.0/24"] []
      [⟨"203.0.113.0/24", "192.0.2.0/24"⟩, ⟨"198.51.100.0/24", "192.0.2.0/24"⟩]
      [] [] []).matched = {"203.0.113.0/24"} := by decide

example :
    validate_device_dhcp "cmts" none ["203.0.113.0/24"] [] [] [] [] [] =
    emptyValidation := by decide

/-! ## `subnet_utils.is_public_ipv4` (the config-extraction utility classifier)

```python
def is_public_ipv4(subnet: str) -> bool:
    try:
        network = ipaddress.IPv4Network(subnet, strict=False)
        return not (network.is_private or network.is_loopback or
                    network.is_link_local or network.is_multicast or
                    network.is_reserved)
    except (ValueError, ipaddress.AddressValueError):
        return False
```

The embedding models `ipaddress.IPv4Network(subnet, strict=False)`:
at most one `/`; the address part is exactly four dot-separated decimal
octets, each 1–3 ASCII digits, value ≤ 255, with no leading zero (only
`"0"` itself may start with `0`); the optional second part is either a
decimal prefix length ≤ 32 (digits only) or a dotted-quad netmask with
contiguous high ones (or a hostmask with contiguous low ones).  With
`strict=False` host bits are accepted; the network/broadcast addresses are
the value with host bits cleared/set.  `is_private` & co. test both
endpoints against the `ipaddress` constant ranges. -/

/-- `ipaddress._parse_octet`: 1–3 ASCII digits, no leading zero except
`"0"`, value ≤ 255. -/
def parseOctetStrict (cs : List Char) : Option Nat :=
  match parseNatChars cs with
  | none => none
  | some v =>
    if cs.length ≤ 3 ∧ (cs.head? = some '0' → cs.length = 1) ∧ v ≤ 255 then
      some v
    else none

/-- `ipaddress.IPv4Address._ip_int_from_string`: exactly four octets. -/
def parseAddrV4 (cs : List Char) : Option Nat :=
  match (splitSep '.' cs).mapM parseOctetStrict with
  | some [o0, o1, o2, o3] => some (((o0 * 256 + o1) * 256 + o2) * 256 + o3)
  | _ => none

/-- `ipaddress.IPv4Network._make_netmask` on the part after `/`: a decimal
prefix length ≤ 32, else a dotted-quad netmask `2^32 - 2^(32-k)`, else a
hostmask `2^k - 1` (prefix `32 - k`). -/
def parseMaskPart (cs : List Char) : Option Nat :=
  match parseNatChars cs with
  | some v => if v ≤ 32 then some v else none
  | none =>
    match parseAddrV4 cs with
    | none => none
    | some m =>
      match (List.range 33).find? (fun k => m == 2 ^ 32 - 2 ^ (32 - k)) with
      | some k => some k
      | none =>
        match (List.range 33).find? (fun k => m == 2 ^ k - 1) with
        | some k => some (32 - k)
        | none => none

/-- `ipaddress.IPv4Network(subnet, strict=False)`: the address value and
prefix length, or `none` where the constructor raises. -/
def parseIPv4Network (s : String) : Option (Nat × Nat) :=
  match splitSep '/' s.data with
  | [a] => (parseAddrV4 a).map (fun v => (v, 32))
  | [a, p] =>
    match parseAddrV4 a, parseMaskPart p with
    | some v, some k => some (v, k)
    | _, _ => none
  | _ => none

/-- Address-in-CIDR-range test over integer values (`base` is the aligned
range base, `k` the range prefix length). -/
def inNet (v base k : Nat) : Bool := v / 2 ^ (32 - k) == base / 2 ^ (32 - k)

/-- Integer value of a dotted quad, for writing the constant ranges. -/
def mkIP (a b c d : Nat) : Nat := ((a * 256 + b) * 256 + c) * 256 + d

/-- `IPv4Address.is_private`: membership in the `_private_networks`
constants of `ipaddress`. -/
def isPrivAddr (v : Nat) : Bool :=
  inNet v (mkIP 0 0 0 0) 8 || inNet v (mkIP 10 0 0 0) 8 ||
  inNet v (mkIP 127 0 0 0) 8 || inNet v (mkIP 169 254 0 0) 16 ||
  inNet v (mkIP 172 16 0 0) 12 || inNet v (mkIP 192 0 0 0) 29 ||
  inNet v (mkIP 192 0 0 170) 31 || inNet v (mkIP 192 0 2 0) 24 ||
  inNet v (mkIP 192 168 0 0) 16 || inNet v (mkIP 198 18 0 0) 15 ||
  inNet v (mkIP 198 51 100 0) 24 || inNet v (mkIP 203 0 113 0) 24 ||
  inNet v (mkIP 240 0 0 0) 4 || inNet v (mkIP 255 255 255 255) 32

/-- `is_loopback` / `is_link_local` / `is_multicast` / `is_reserved` for an
address value. -/
def isOtherNonPublicAddr (v : Nat) : Bool :=
  inNet v (mkIP 127 0 0 0) 8 || inNet v (mkIP 169 254 0 0) 16 ||
  inNet v (mkIP 224 0 0 0) 4 || inNet v (mkIP 240 0 0 0) 4

/-- `subnet_utils.is_public_ipv4` (network predicates test both the network
and the broadcast address of the parsed network). -/
def utils_is_public_ipv4 (subnet : String) : Bool :=
  match parseIPv4Network subnet with
  | none => false
  | some (v, k) =>
    let host := 2 ^ (32 - k)
    let net := v / host * host
    let bcast := net + (host - 1)
    !((isPrivAddr net && isPrivAddr bcast) ||
      (isOtherNonPublicAddr net && isOtherNonPublicAddr bcast))

example : utils_is_public_ipv4 "203.80.0.0/22" = true := by decide
example : utils_is_public_ipv4 "10.1.0.0/24" = false := by decide
example : utils_is_public_ipv4 "198.19.0.0/24" = false := by decide
example : utils_is_public_ipv4 "not-an-ip" = false := by decide
example : utils_is_public_ipv4 "8.8.8.0/255.255.255.0" = true := by decide
example : utils_is_public_ipv4 "8.8.8.0/0.0.0.255" = true := by decide
example : utils_is_public_ipv4 "10.banana" = false := by decide
example : utils_is_public_ipv4 "10.0.0.1" = false := by decide

/-! ## Specification-side checkers (used only to state properties)

These definitions give meaning to "normalized network-address form": a CIDR
string parses back into an address value and prefix length, and the value
has all host bits zero.  They follow the specification's words, not any
repository function. -/

/-- Parse `a.b.c.d/p` with plain decimal digit fields, octets ≤ 255 and
`p ≤ 32`, into `(value, p)`. -/
def parseQuadCidr (s : String) : Option (Nat × Nat) :=
  match splitSep '/' s.data with
  | [ipcs, pcs] =>
    match (splitSep '.' ipcs).mapM parseNatChars, parseNatChars pcs with
    | some [o0, o1, o2, o3], some p =>
      if o0 ≤ 255 ∧ o1 ≤ 255 ∧ o2 ≤ 255 ∧ o3 ≤ 255 ∧ p ≤ 32 then
        some (((o0 * 256 + o1) * 256 + o2) * 256 + o3, p)
      else none
    | _, _ => none
  | _ => none

/-- "Normalized network-address form" for an IPv4 CIDR string: it parses
and its value is divisible by `2^(32-p)` (all host bits cleared). -/
def hostBitsCleared (s : String) : Bool :=
  match parseQuadCidr s with
  | some (v, p) => v % 2 ^ (32 - p) == 0
  | none => false

example : hostBitsCleared "10.254.216.0/24" = true := by decide
example : hostBitsCleared "10.254.216.1/24" = false := by decide

/-- Hex digit test for IPv6 group characters. -/
def isHexCh (c : Char) : Bool :=
  c.isDigit || ('a' ≤ c.toLower && c.toLower ≤ 'f')

/-- Value of one hex digit. -/
def hexVal (c : Char) : Nat :=
  if c.isDigit then c.toNat - 48 else c.toLower.toNat - 87

/-- Parse one IPv6 group: 1–4 hex digits. -/
def parseHexGroup (cs : List Char) : Option Nat :=
  if cs ≠ [] ∧ cs.length ≤ 4 ∧ cs.all isHexCh then
    some (cs.foldl (fun acc c => acc * 16 + hexVal c) 0)
  else none

/-- Split at the first `::`, if any. -/
def splitDoubleColon : List Char → Option (List Char × List Char)
  | ':' :: ':' :: rest => some ([], rest)
  | c :: rest => (splitDoubleColon rest).map (fun ab => (c :: ab.1, ab.2))
  | [] => none

/-- Groups of a `::`-free side: empty text is no group at all. -/
def sideGroups (cs : List Char) : Option (List Nat) :=
  if cs = [] then some []
  else (splitSep ':' cs).mapM parseHexGroup

/-- Fold eight 16-bit groups into the 128-bit address value. -/
def foldGroups (gs : List Nat) : Nat :=
  gs.foldl (fun acc g => acc * 65536 + g) 0

/-- Parse an IPv6 address (standard text form, one optional `::`) into its
128-bit value. -/
def parseIPv6 (s : String) : Option Nat :=
  match splitDoubleColon s.data with
  | some (l, r) =>
    if (splitDoubleColon r).isSome then none
    else
      match sideGroups l, sideGroups r with
      | some lg, some rg =>
        if lg.length + rg.length ≤ 7 then
          some (foldGroups (lg ++ List.replicate (8 - lg.length - rg.length) 0 ++ rg))
        else none
      | _, _ => none
  | none =>
    match (splitSep ':' s.data).mapM parseHexGroup with
    | some gs => if gs.length = 8 then some (foldGroups gs) else none
    | _ => none

example : parseIPv6 "2001:db8::1" = some 0x20010db8000000000000000000000001 := by decide
example : parseIPv6 "::1" = some 1 := by decide
example : parseIPv6 "2001:db8:100::" = some 0x20010db8010000000000000000000000 := by decide

/-! ## Lemmas about the validator -/

theorem data_isEmpty_false (p : String) (hp : p ≠ "") : p.data.isEmpty = false := by
  cases p with
  | mk l =>
    cases l with
    | nil => exact absurd rfl hp
    | cons c cs => rfl

theorem validate_some_eq (dn p : String) (hp : p ≠ "")
    (pub4 pub6 : List String) (rows4 : List ScopeRow) (rows6 : List V6Row)
    (retry4 : List ScopeRow) (retry6 : List V6Row) :
    validate_device_dhcp dn (some p) pub4 pub6 rows4 rows6 retry4 retry6 =
      buildResult p pub4 pub6 rows4 rows6 ∨
    validate_device_dhcp dn (some p) pub4 pub6 rows4 rows6 retry4 retry6 =
      buildResult p pub4 pub6 retry4 retry6 := by
  unfold validate_device_dhcp
  simp only [data_isEmpty_false p hp, Bool.false_eq_true, if_false]
  split_ifs <;> simp

/-- C1: the anomaly-retry rule of `validate_device_dhcp`: when the initially
computed scope count (public non-primary IPv4 scopes plus deduplicated IPv6
prefixes) is `≤ 1`, the registry queries are re-issued exactly once, and the
retried rows are adopted iff their count is strictly higher than the
original; when the initial count is `> 1` no retry outcome is consulted; and
when the registry answers the retry with the same rows, the final
`dhcp_scopes_count` equals the original count (the retry is bounded to this
single attempt — the definition contains no further retry branch). -/
theorem validate_retry_rule (dn p : String) (hp : p ≠ "")
    (pub4 pub6 : List String) (rows4 : List ScopeRow) (rows6 : List V6Row)
    (retry4 : List ScopeRow) (retry6 : List V6Row) :
    ((filterPublicScopes rows4 p).length + (dedupV6 rows6).length ≤ 1 →
      validate_device_dhcp dn (some p) pub4 pub6 rows4 rows6 retry4 retry6 =
        (if (filterPublicScopes retry4 p).length + (dedupV6 retry6).length >
            (filterPublicScopes rows4 p).length + (dedupV6 rows6).length then
          buildResult p pub4 pub6 retry4 retry6
        else
          buildResult p pub4 pub6 rows4 rows6)) ∧
    (1 < (filterPublicScopes rows4 p).length + (dedupV6 rows6).length →
      validate_device_dhcp dn (some p) pub4 pub6 rows4 rows6 retry4 retry6 =
        buildResult p pub4 pub6 rows4 rows6) ∧
    (retry4 = rows4 → retry6 = rows6 →
      (validate_device_dhcp dn (some p) pub4 pub6 rows4 rows6 retry4 retry6).dhcp_scopes_count =
        (filterPublicScopes rows4 p).length + (dedupV6 rows6).length) := by
  unfold validate_device_dhcp
  simp only [data_isEmpty_false p hp, Bool.false_eq_true, if_false]
  refine ⟨?_, ?_, ?_⟩
  · intro h1
    simp only [h1, if_true]
  · intro h1
    rw [if_neg (by omega)]
  · intro h4 h6
    subst h4; subst h6
    split_ifs with h1 h2
    · omega
    · rfl
    · rfl

/-- Witness for `validate_retry_rule`: on a concrete device whose first
read returns nothing and whose retry returns one public scope, the retried
data is adopted. -/
theorem validate_retry_rule_witness :
    validate_device_dhcp "cmts" (some "192.0.2.0/24") [] [] [] []
      [⟨"203.0.113.0/24", "192.0.2.0/24"⟩] [] =
    buildResult "192.0.2.0/24" [] [] [⟨"203.0.113.0/24", "192.0.2.0/24"⟩] [] := by
  have h := (validate_retry_rule "cmts" "192.0.2.0/24" (by decide) [] [] [] []
    [⟨"203.0.113.0/24", "192.0.2.0/24"⟩] []).1 (by decide)
  rw [h]
  decide

theorem buildResult_count (p : String) (pub4 pub6 : List String)
    (r4 : List ScopeRow) (r6 : List V6Row) :
    (buildResult p pub4 pub6 r4 r6).dhcp_scopes_count =
      (filterPublicScopes (buildResult p pub4 pub6 r4 r6).dhcp_scopes p).length +
      (dedupV6 (buildResult p pub4 pub6 r4 r6).dhcp_ipv6_scopes).length := rfl

theorem primary_notMem_filterPublicScopes (rows : List ScopeRow) (p : String) :
    p ∉ (filterPublicScopes rows p).map (·.scope) := by
  intro hmem
  rcases List.mem_map.mp hmem with ⟨s, hs, hscope⟩
  have hpred := (List.mem_filter.mp hs).2
  simp only [Bool.and_eq_true, bne_iff_ne, ne_eq] at hpred
  exact hpred.2 hscope

theorem buildResult_hasdhcp (p : String) (pub4 pub6 : List String)
    (r4 : List ScopeRow) (r6 : List V6Row) :
    (buildResult p pub4 pub6 r4 r6).has_dhcp = true ↔
      0 < (buildResult p pub4 pub6 r4 r6).dhcp_scopes_count := by
  simp [buildResult]

theorem buildResult_primary_notMem_extra (p : String) (pub4 pub6 : List String)
    (r4 : List ScopeRow) (r6 : List V6Row) :
    p ∉ (buildResult p pub4 pub6 r4 r6).extra_in_dhcp := by
  intro hmem
  have : p ∈ ((filterPublicScopes r4 p).map (·.scope)).toFinset \ pub4.toFinset ∨ False := by
    simp only [buildResult] at hmem
    split_ifs at hmem with h
    · exact Or.inl hmem
    · simp at hmem
  rcases this with h | h
  · exact primary_notMem_filterPublicScopes r4 p
      (List.mem_toFinset.mp (Finset.mem_sdiff.mp h).1)
  · exact h

/-- C4: with a present primary subnet, `dhcp_scopes_count` is the number of
registry IPv4 scopes (of the rows the validator settled on) that are public
and different from the primary, plus the number of deduplicated IPv6
prefixes; the primary never occurs among the counted scopes nor in
`extra_in_dhcp`; `has_dhcp` holds iff the count is positive; and with an
absent primary the zero-value result is returned, independent of any
registry rows. -/
theorem validate_count_spec (dn p : String) (hp : p ≠ "")
    (pub4 pub6 : List String) (rows4 : List ScopeRow) (rows6 : List V6Row)
    (retry4 : List ScopeRow) (retry6 : List V6Row) (r : ValidationResult)
    (hr : r = validate_device_dhcp dn (some p) pub4 pub6 rows4 rows6 retry4 retry6) :
    (r.dhcp_scopes_count =
       (filterPublicScopes r.dhcp_scopes p).length + (dedupV6 r.dhcp_ipv6_scopes).length ∧
     p ∉ (filterPublicScopes r.dhcp_scopes p).map (·.scope) ∧
     p ∉ r.extra_in_dhcp ∧
     (r.has_dhcp = true ↔ 0 < r.dhcp_scopes_count)) ∧
    validate_device_dhcp dn none pub4 pub6 rows4 rows6 retry4 retry6 = emptyValidation := by
  constructor
  · rcases validate_some_eq dn p hp pub4 pub6 rows4 rows6 retry4 retry6 with h | h <;>
      rw [h] at hr <;> subst hr <;>
      exact ⟨buildResult_count _ _ _ _ _, primary_notMem_filterPublicScopes _ _,
             buildResult_primary_notMem_extra _ _ _ _ _, buildResult_hasdhcp _ _ _ _ _⟩
  · rfl

/-- Witness for `validate_count_spec`: concrete device with one public
extra scope, one primary-equal scope (excluded) and one private scope
(excluded). -/
theorem validate_count_spec_witness :
    (validate_device_dhcp "cmts" (some "192.0.2.0/24") [] []
        [⟨"203.0.113.0/24", "192.0.2.0/24"⟩, ⟨"192.0.2.0/24", "192.0.2.0/24"⟩,
         ⟨"10.1.0.0/24", "192.0.2.0/24"⟩]
        [⟨"SITE-A"⟩, ⟨"SITE-A-PD"⟩] [] []).dhcp_scopes_count = 2 ∧
    "192.0.2.0/24" ∉
      (validate_device_dhcp "cmts" (some "192.0.2.0/24") [] []
        [⟨"203.0.113.0/24", "192.0.2.0/24"⟩, ⟨"192.0.2.0/24", "192.0.2.0/24"⟩,
         ⟨"10.1.0.0/24", "192.0.2.0/24"⟩]
        [⟨"SITE-A"⟩, ⟨"SITE-A-PD"⟩] [] []).extra_in_dhcp := by
  have h := validate_count_spec "cmts" "192.0.2.0/24" (by decide) [] []
    [⟨"203.0.113.0/24", "192.0.2.0/24"⟩, ⟨"192.0.2.0/24", "192.0.2.0/24"⟩,
     ⟨"10.1.0.0/24", "192.0.2.0/24"⟩]
    [⟨"SITE-A"⟩, ⟨"SITE-A-PD"⟩] [] [] _ rfl
  refine ⟨?_, h.1.2.2.1⟩
  rw [h.1.1]
  decide

theorem buildResult_sets (p : String) (pub4 pub6 : List String)
    (r4 : List ScopeRow) (r6 : List V6Row) :
    ((buildResult p pub4 pub6 r4 r6).has_dhcp = true →
      (buildResult p pub4 pub6 r4 r6).matched =
        pub4.toFinset ∩ ((filterPublicScopes r4 p).map (·.scope)).toFinset ∧
      (buildResult p pub4 pub6 r4 r6).missing_in_dhcp =
        pub4.toFinset \ ((filterPublicScopes r4 p).map (·.scope)).toFinset ∧
      (buildResult p pub4 pub6 r4 r6).extra_in_dhcp =
        ((filterPublicScopes r4 p).map (·.scope)).toFinset \ pub4.toFinset) ∧
    ((buildResult p pub4 pub6 r4 r6).has_dhcp = false →
      (buildResult p pub4 pub6 r4 r6).missing_in_dhcp = pub4.toFinset ∧
      (buildResult p pub4 pub6 r4 r6).matched = ∅ ∧
      (buildResult p pub4 pub6 r4 r6).extra_in_dhcp = ∅) ∧
    (r6 = [] →
      (buildResult p pub4 pub6 r4 r6).ipv6_missing_in_dhcp = pub6.toFinset ∧
      (buildResult p pub4 pub6 r4 r6).ipv6_matched = ∅) ∧
    (r6 ≠ [] →
      (buildResult p pub4 pub6 r4 r6).ipv6_matched =
        pub6.toFinset ∩ (r6.map (·.pfxName)).toFinset ∧
      (buildResult p pub4 pub6 r4 r6).ipv6_missing_in_dhcp =
        pub6.toFinset \ (r6.map (·.pfxName)).toFinset) := by
  refine ⟨?_, ?_, ?_, ?_⟩ <;> intro h <;>
    simp_all [buildResult, List.isEmpty_iff]

/-- Full set-algebra description of the validator (helper shared by the
set-algebra and deduplication results below). -/
theorem validate_sets_full (dn p : String) (hp : p ≠ "")
    (pub4 pub6 : List String) (rows4 : List ScopeRow) (rows6 : List V6Row)
    (retry4 : List ScopeRow) (retry6 : List V6Row) (r : ValidationResult)
    (hr : r = validate_device_dhcp dn (some p) pub4 pub6 rows4 rows6 retry4 retry6) :
    (r.has_dhcp = true →
      r.matched = pub4.toFinset ∩ ((filterPublicScopes r.dhcp_scopes p).map (·.scope)).toFinset ∧
      r.missing_in_dhcp =
        pub4.toFinset \ ((filterPublicScopes r.dhcp_scopes p).map (·.scope)).toFinset ∧
      r.extra_in_dhcp =
        ((filterPublicScopes r.dhcp_scopes p).map (·.scope)).toFinset \ pub4.toFinset ∧
      r.matched ∪ r.missing_in_dhcp = pub4.toFinset ∧
      r.matched ∪ r.extra_in_dhcp =
        ((filterPublicScopes r.dhcp_scopes p).map (·.scope)).toFinset) ∧
    (r.has_dhcp = false →
      r.missing_in_dhcp = pub4.toFinset ∧ r.matched = ∅ ∧ r.extra_in_dhcp = ∅) ∧
    (r.dhcp_ipv6_scopes = [] →
      r.ipv6_missing_in_dhcp = pub6.toFinset ∧ r.ipv6_matched = ∅) ∧
    (r.dhcp_ipv6_scopes ≠ [] →
      r.ipv6_matched = pub6.toFinset ∩ (r.dhcp_ipv6_scopes.map (·.pfxName)).toFinset ∧
      r.ipv6_missing_in_dhcp =
        pub6.toFinset \ (r.dhcp_ipv6_scopes.map (·.pfxName)).toFinset ∧
      r.ipv6_matched ∪ r.ipv6_missing_in_dhcp = pub6.toFinset) := by
  have key : ∀ (a4 : List ScopeRow) (a6 : List V6Row),
      r = buildResult p pub4 pub6 a4 a6 →
      (r.has_dhcp = true →
        r.matched = pub4.toFinset ∩ ((filterPublicScopes r.dhcp_scopes p).map (·.scope)).toFinset ∧
        r.missing_in_dhcp =
          pub4.toFinset \ ((filterPublicScopes r.dhcp_scopes p).map (·.scope)).toFinset ∧
        r.extra_in_dhcp =
          ((filterPublicScopes r.dhcp_scopes p).map (·.scope)).toFinset \ pub4.toFinset ∧
        r.matched ∪ r.missing_in_dhcp = pub4.toFinset ∧
        r.matched ∪ r.extra_in_dhcp =
          ((filterPublicScopes r.dhcp_scopes p).map (·.scope)).toFinset) ∧
      (r.has_dhcp = false →
        r.missing_in_dhcp = pub4.toFinset ∧ r.matched = ∅ ∧ r.extra_in_dhcp = ∅) ∧
      (r.dhcp_ipv6_scopes = [] →
        r.ipv6_missing_in_dhcp = pub6.toFinset ∧ r.ipv6_matched = ∅) ∧
      (r.dhcp_ipv6_scopes ≠ [] →
        r.ipv6_matched = pub6.toFinset ∩ (r.dhcp_ipv6_scopes.map (·.pfxName)).toFinset ∧
        r.ipv6_missing_in_dhcp =
          pub6.toFinset \ (r.dhcp_ipv6_scopes.map (·.pfxName)).toFinset ∧
        r.ipv6_matched ∪ r.ipv6_missing_in_dhcp = pub6.toFinset) := by
    intro a4 a6 hb
    have hscopes : r.dhcp_scopes = a4 := by rw [hb]; rfl
    have hscopes6 : r.dhcp_ipv6_scopes = a6 := by rw [hb]; rfl
    obtain ⟨h1, h2, h3, h4⟩ := buildResult_sets p pub4 pub6 a4 a6
    refine ⟨?_, ?_, ?_, ?_⟩
    · intro ht
      obtain ⟨hm, hmiss, hex⟩ := h1 (by rw [hb] at ht; exact ht)
      rw [hscopes]
      refine ⟨by rw [hb]; exact hm, by rw [hb]; exact hmiss, by rw [hb]; exact hex, ?_, ?_⟩
      · rw [hb, hm, hmiss, Finset.union_comm, Finset.sdiff_union_inter]
      · rw [hb, hm, hex, Finset.inter_comm, Finset.union_comm, Finset.sdiff_union_inter]
    · intro hf
      obtain ⟨hmiss, hm, hex⟩ := h2 (by rw [hb] at hf; exact hf)
      exact ⟨by rw [hb]; exact hmiss, by rw [hb]; exact hm, by rw [hb]; exact hex⟩
    · intro he
      rw [hscopes6] at he
      obtain ⟨hmiss, hm⟩ := h3 he
      exact ⟨by rw [hb]; exact hmiss, by rw [hb]; exact hm⟩
    · intro hne
      rw [hscopes6] at hne
      obtain ⟨hm, hmiss⟩ := h4 hne
      rw [hscopes6]
      refine ⟨by rw [hb]; exact hm, by rw [hb]; exact hmiss, ?_⟩
      rw [hb, hm, hmiss, Finset.union_comm, Finset.sdiff_union_inter]
  rcases validate_some_eq dn p hp pub4 pub6 rows4 rows6 retry4 retry6 with h | h <;>
    rw [h] at hr
  · exact key rows4 rows6 hr
  · exact key retry4 retry6 hr

/-- C2: the reconciliation set algebra.  With a present primary subnet and
`hasDHCP` true, `matched`/`missingInDHCP`/`extraInDHCP` are exactly the
intersection and the two differences of the discovered set and the filtered
public registry scope set (so `matched ∪ missing` recovers the discovered
set and `matched ∪ extra` the registry set); with `hasDHCP` false,
`missingInDHCP` is the whole discovered set and the other two are empty.
For IPv6 the comparison runs over prefix-name sets (of the raw rows the
validator settled on) whenever such rows exist, and `ipv6MissingInDHCP` is
the whole discovered IPv6 set when none exist. -/
theorem validate_set_algebra (dn p : String) (hp : p ≠ "")
    (pub4 pub6 : List String) (rows4 : List ScopeRow) (rows6 : List V6Row)
    (retry4 : List ScopeRow) (retry6 : List V6Row) (r : ValidationResult)
    (hr : r = validate_device_dhcp dn (some p) pub4 pub6 rows4 rows6 retry4 retry6) :
    (r.has_dhcp = true →
      r.matched = pub4.toFinset ∩ ((filterPublicScopes r.dhcp_scopes p).map (·.scope)).toFinset ∧
      r.missing_in_dhcp =
        pub4.toFinset \ ((filterPublicScopes r.dhcp_scopes p).map (·.scope)).toFinset ∧
      r.extra_in_dhcp =
        ((filterPublicScopes r.dhcp_scopes p).map (·.scope)).toFinset \ pub4.toFinset ∧
      r.matched ∪ r.missing_in_dhcp = pub4.toFinset ∧
      r.matched ∪ r.extra_in_dhcp =
        ((filterPublicScopes r.dhcp_scopes p).map (·.scope)).toFinset) ∧
    (r.has_dhcp = false →
      r.missing_in_dhcp = pub4.toFinset ∧ r.matched = ∅ ∧ r.extra_in_dhcp = ∅) ∧
    (r.dhcp_ipv6_scopes = [] →
      r.ipv6_missing_in_dhcp = pub6.toFinset ∧ r.ipv6_matched = ∅) ∧
    (r.dhcp_ipv6_scopes ≠ [] →
      r.ipv6_matched = pub6.toFinset ∩ (r.dhcp_ipv6_scopes.map (·.pfxName)).toFinset ∧
      r.ipv6_missing_in_dhcp =
        pub6.toFinset \ (r.dhcp_ipv6_scopes.map (·.pfxName)).toFinset ∧
      r.ipv6_matched ∪ r.ipv6_missing_in_dhcp = pub6.toFinset) :=
  validate_sets_full dn p hp pub4 pub6 rows4 rows6 retry4 retry6 r hr

/-- Witness for `validate_set_algebra` at the end-to-end scenario of the
specification: one discovered public subnet matched by one registry scope. -/
theorem validate_set_algebra_witness :
    (validate_device_dhcp "ZNB-LC0001-CCAP001" (some "192.0.2.0/24")
        ["203.0.113.0/24"] []
        [⟨"203.0.113.0/24", "192.0.2.0/24"⟩, ⟨"198.51.100.0/24", "192.0.2.0/24"⟩]
        [] [] []).matched = {"203.0.113.0/24"} ∧
    (validate_device_dhcp "ZNB-LC0001-CCAP001" (some "192.0.2.0/24")
        ["203.0.113.0/24"] []
        [⟨"203.0.113.0/24", "192.0.2.0/24"⟩, ⟨"198.51.100.0/24", "192.0.2.0/24"⟩]
        [] [] []).missing_in_dhcp = ∅ := by
  have h := (validate_set_algebra "ZNB-LC0001-CCAP001" "192.0.2.0/24" (by decide)
    ["203.0.113.0/24"] []
    [⟨"203.0.113.0/24", "192.0.2.0/24"⟩, ⟨"198.51.100.0/24", "192.0.2.0/24"⟩]
    [] [] [] _ rfl).1 (by decide)
  refine ⟨?_, ?_⟩
  · rw [h.1]; decide
  · rw [h.2.1]; decide

/-- C3 (amended): `-PD` prefix-delegation deduplication is applied before the
rows are counted toward `dhcpScopeCount` — so the records `SITE-A` and
`SITE-A-PD` together contribute exactly one scope — but the IPv6
matched/missing set comparison is performed on the raw, non-deduplicated
prefix-name set, not on the collapsed representatives. -/
theorem ipv6_dedup_amended (dn p : String) (hp : p ≠ "")
    (pub4 pub6 : List String) (rows4 : List ScopeRow) (rows6 : List V6Row)
    (retry4 : List ScopeRow) (retry6 : List V6Row) (r : ValidationResult)
    (hr : r = validate_device_dhcp dn (some p) pub4 pub6 rows4 rows6 retry4 retry6) :
    r.dhcp_scopes_count =
      (filterPublicScopes r.dhcp_scopes p).length + (dedupV6 r.dhcp_ipv6_scopes).length ∧
    (dedupV6 [⟨"SITE-A"⟩, ⟨"SITE-A-PD"⟩]).length = 1 ∧
    (r.dhcp_ipv6_scopes ≠ [] →
      r.ipv6_matched = pub6.toFinset ∩ (r.dhcp_ipv6_scopes.map (·.pfxName)).toFinset) := by
  refine ⟨?_, by decide, ?_⟩
  · rcases validate_some_eq dn p hp pub4 pub6 rows4 rows6 retry4 retry6 with h | h <;>
      rw [h] at hr <;> subst hr <;> exact buildResult_count _ _ _ _ _
  · intro hne
    exact ((validate_sets_full dn p hp pub4 pub6 rows4 rows6 retry4 retry6 r hr).2.2.2
      hne).1

/-- Witness for `ipv6_dedup_amended`: a device with the two registry records
`SITE-A` and `SITE-A-PD` has `dhcp_scopes_count = 1`. -/
theorem ipv6_dedup_amended_witness :
    (validate_device_dhcp "cmts" (some "192.0.2.0/24") [] ["SITE-A-PD"] []
      [⟨"SITE-A"⟩, ⟨"SITE-A-PD"⟩] [] [⟨"SITE-A"⟩, ⟨"SITE-A-PD"⟩]).dhcp_scopes_count = 1 := by
  have h := (ipv6_dedup_amended "cmts" "192.0.2.0/24" (by decide) [] ["SITE-A-PD"] []
    [⟨"SITE-A"⟩, ⟨"SITE-A-PD"⟩] [] [⟨"SITE-A"⟩, ⟨"SITE-A-PD"⟩] _ rfl).1
  rw [h]
  decide

/-- Counterexample to C3 as stated: with discovered IPv6 list `["SITE-A-PD"]`
and registry records `SITE-A`, `SITE-A-PD`, the validator reports
`ipv6_matched = {"SITE-A-PD"}`, although after collapsing the two records to
the representative `SITE-A` the intersection with the discovered set would
be empty — the set comparison is therefore not performed on deduplicated
records. -/
theorem ipv6_dedup_counterexample :
    (validate_device_dhcp "cmts" (some "192.0.2.0/24") [] ["SITE-A-PD"] []
      [⟨"SITE-A"⟩, ⟨"SITE-A-PD"⟩] [] [⟨"SITE-A"⟩, ⟨"SITE-A-PD"⟩]).ipv6_matched =
      {"SITE-A-PD"} ∧
    (["SITE-A-PD"] : List String).toFinset ∩
      ((dedupV6 [⟨"SITE-A"⟩, ⟨"SITE-A-PD"⟩]).map (·.pfxName)).toFinset = ∅ := by
  decide

/-! ## Characterization of the IPv4 extraction loop -/

theorem extract_ipv4_foldl (lines : List Ipv4Line) :
    ∀ (p0 : Option String) (acc : List String),
    lines.foldl extract_ipv4_step (p0, acc) =
      ((match p0 with
        | some s => some s
        | none =>
          (lines.filterMap (fun l => if l.secondary then none else lineSubnet l)).head?),
       acc ++ lines.filterMap (fun l => if is_public_ipv4 l.ip then lineSubnet l else none)) := by
  induction lines with
  | nil => intro p0 acc; cases p0 <;> simp
  | cons l ls ih =>
    intro p0 acc
    rw [List.foldl_cons]
    rcases hc : netmask_to_cidr l.mask with - | p
    · have hstep : extract_ipv4_step (p0, acc) l = (p0, acc) := by
        simp [extract_ipv4_step, hc]
      have hsub : lineSubnet l = none := by simp [lineSubnet, hc]
      rw [hstep, ih p0 acc]
      cases p0 <;> simp [hsub]
    · by_cases hp0 : p = 0
      · subst hp0
        have hstep : extract_ipv4_step (p0, acc) l = (p0, acc) := by
          simp [extract_ipv4_step, hc]
        have hsub : lineSubnet l = none := by simp [lineSubnet, hc]
        rw [hstep, ih p0 acc]
        cases p0 <;> simp [hsub]
      · have hsub : lineSubnet l = some (normalize_subnet l.ip p) := by
          simp [lineSubnet, hc, hp0]
        have hstep : extract_ipv4_step (p0, acc) l =
            ((match p0 with
              | none => if l.secondary then none else some (normalize_subnet l.ip p)
              | some s => some s),
             if is_public_ipv4 l.ip then acc ++ [normalize_subnet l.ip p] else acc) := by
          simp [extract_ipv4_step, hc, hp0]
        rw [hstep, ih]
        cases p0 with
        | none =>
          by_cases hsec : l.secondary <;>
            by_cases hpub : is_public_ipv4 l.ip <;>
            simp [hsub, hsec, hpub]
        | some s =>
          by_cases hpub : is_public_ipv4 l.ip <;> simp [hsub, hpub]

/-- C6: the primary subnet is the first (in match order) `ip address` line
without the `secondary` qualifier whose netmask yields a truthy prefix,
normalized — the characterizing formula does not consult the public/private
classifier, and the `head?` form shows a later line never overwrites it —
while the public subnet list collects exactly the lines whose address passes
`is_public_ipv4`.  The concrete conjunct shows a private non-secondary line
becoming the primary while contributing nothing to the public list. -/
theorem extract_primary_independent (lines : List Ipv4Line) :
    (extract_ipv4_subnets lines).1 =
      (lines.filterMap (fun l => if l.secondary then none else lineSubnet l)).head? ∧
    (extract_ipv4_subnets lines).2 =
      lines.filterMap (fun l => if is_public_ipv4 l.ip then lineSubnet l else none) ∧
    extract_ipv4_subnets
      [⟨"10.254.216.1", "255.255.255.0", false⟩,
       ⟨"203.0.113.5", "255.255.255.0", true⟩] =
      (some "10.254.216.0/24", ["203.0.113.0/24"]) := by
  refine ⟨?_, ?_, by decide⟩
  · rw [extract_ipv4_subnets, extract_ipv4_foldl]
  · rw [extract_ipv4_subnets, extract_ipv4_foldl]
    simp

/-! ## Characterization of the IPv6 extraction loop -/

theorem extract_ipv6_foldl (lines : List Ipv6Line) :
    ∀ acc : List String,
    lines.foldl
      (fun acc l =>
        if is_public_ipv6 l.addr then acc ++ [l.addr ++ "/" ++ rewritePfx l.pfx]
        else acc) acc =
      acc ++ (lines.filter (fun l => is_public_ipv6 l.addr)).map
        (fun l => l.addr ++ "/" ++ rewritePfx l.pfx) := by
  induction lines with
  | nil => intro acc; simp
  | cons l ls ih =>
    intro acc
    by_cases hpub : is_public_ipv6 l.addr <;> simp [hpub, ih]

set_option maxRecDepth 4000 in
/-- C8 (amended): every extracted IPv6 pair whose address passes the public
classifier is emitted as `addr/rewritePfx pfx`, where the rewrite replaces
the prefix token by `"40"` exactly when the token is the literal string
`"56"`; for a canonically rendered decimal token this is exactly "prefix
length 56", but a non-canonical spelling of 56 (such as `"056"`) passes
through unchanged. -/
theorem ipv6_rewrite_amended (lines : List Ipv6Line) :
    extract_ipv6_subnets lines =
      (lines.filter (fun l => is_public_ipv6 l.addr)).map
        (fun l => l.addr ++ "/" ++ rewritePfx l.pfx) ∧
    (∀ n, n < 1000 →
      rewritePfx (String.mk (decRepr n)) =
        if n = 56 then "40" else String.mk (decRepr n)) := by
  constructor
  · rw [extract_ipv6_subnets, extract_ipv6_foldl]
    simp
  · decide

/-- Witness for `ipv6_rewrite_amended`: a public `/56` line is emitted as
`/40`, and the canonical token of 56 is rewritten. -/
theorem ipv6_rewrite_amended_witness :
    extract_ipv6_subnets [⟨"2001:db8:100::", "56"⟩] = ["2001:db8:100::/40"] ∧
    rewritePfx (String.mk (decRepr 56)) = "40" := by
  have h := ipv6_rewrite_amended [⟨"2001:db8:100::", "56"⟩]
  constructor
  · rw [h.1]; decide
  · rw [h.2 56 (by decide)]; decide

/-- Counterexample to C8 as stated: the extracted pair
`("2001:db8::", "056")` has prefix length 56 (its token parses to 56), yet
the emitted subnet keeps `/056` — the rewrite compares the token string
against `"56"`, so this length-56 pair is not rewritten to `/40`. -/
theorem ipv6_rewrite_counterexample :
    extract_ipv6_subnets [⟨"2001:db8::", "056"⟩] = ["2001:db8::/056"] ∧
    parseNatChars "056".data = some 56 ∧
    ("2001:db8::/056" : String) ≠ "2001:db8::/40" := by
  decide

/-! ## Normalization facts (claim C9) -/

theorem splitSep_sepFree (sep : Char) (xs : List Char) (h : sep ∉ xs) :
    splitSep sep xs = [xs] := by
  induction xs with
  | nil => rfl
  | cons c cs ih =>
    have hc : c ≠ sep := fun e => h (e ▸ List.mem_cons_self c cs)
    have hcs : sep ∉ cs := fun m => h (List.mem_cons_of_mem c m)
    simp [splitSep, hc, ih hcs]

theorem splitSep_append (sep : Char) (xs ys : List Char) (h : sep ∉ xs) :
    splitSep sep (xs ++ sep :: ys) = xs :: splitSep sep ys := by
  induction xs with
  | nil => simp [splitSep]
  | cons c cs ih =>
    have hc : c ≠ sep := fun e => h (e ▸ List.mem_cons_self c cs)
    have hcs : sep ∉ cs := fun m => h (List.mem_cons_of_mem c m)
    rw [List.cons_append]
    simp only [splitSep, hc, if_false, ih hcs]

theorem head?_mem {α : Type} {l : List α} {a : α} (h : l.head? = some a) : a ∈ l := by
  cases l with
  | nil => simp at h
  | cons b t =>
    have hb : b = a := by simpa using h
    exact hb ▸ List.mem_cons_self b t

set_option maxRecDepth 4000 in
theorem decRepr_all_digit : ∀ n, n < 256 → (decRepr n).all Char.isDigit = true := by decide

set_option maxRecDepth 4000 in
theorem parseNat_decRepr : ∀ n, n < 256 → parseNatChars (decRepr n) = some n := by decide

set_option maxRecDepth 4000 in
theorem popcount_le_eight : ∀ n, n < 256 → popcount n ≤ 8 := by decide

theorem digit_ne_slash {c : Char} (h : c.isDigit = true) : c ≠ '/' := by
  intro e; rw [e] at h; exact absurd h (by decide)

theorem digit_ne_dot {c : Char} (h : c.isDigit = true) : c ≠ '.' := by
  intro e; rw [e] at h; exact absurd h (by decide)

theorem decRepr_mem_digit {n : Nat} (hn : n < 256) {c : Char} (hc : c ∈ decRepr n) :
    c.isDigit = true :=
  List.all_eq_true.mp (decRepr_all_digit n hn) c hc

theorem slash_not_mem_decRepr {n : Nat} (hn : n < 256) : '/' ∉ decRepr n :=
  fun hm => digit_ne_slash (decRepr_mem_digit hn hm) rfl

theorem dot_not_mem_decRepr {n : Nat} (hn : n < 256) : '.' ∉ decRepr n :=
  fun hm => digit_ne_dot (decRepr_mem_digit hn hm) rfl

theorem parseQuadCidr_eq (s : String) (ipcs pcs : List Char)
    (h : splitSep '/' s.data = [ipcs, pcs]) :
    parseQuadCidr s =
      (match (splitSep '.' ipcs).mapM parseNatChars, parseNatChars pcs with
       | some [o0, o1, o2, o3], some p =>
         if o0 ≤ 255 ∧ o1 ≤ 255 ∧ o2 ≤ 255 ∧ o3 ≤ 255 ∧ p ≤ 32 then
           some (((o0 * 256 + o1) * 256 + o2) * 256 + o3, p)
         else none
       | _, _ => none) := by
  unfold parseQuadCidr
  rw [h]


theorem parseQuadCidr_renderQuad (o0 o1 o2 o3 p : Nat)
    (h0 : o0 ≤ 255) (h1 : o1 ≤ 255) (h2 : o2 ≤ 255) (h3 : o3 ≤ 255) (hp : p ≤ 32) :
    parseQuadCidr (renderQuad o0 o1 o2 o3 p) =
      some (((o0 * 256 + o1) * 256 + o2) * 256 + o3, p) := by
  have hform :
      (renderQuad o0 o1 o2 o3 p).data =
        (decRepr o0 ++ '.' :: (decRepr o1 ++ '.' :: (decRepr o2 ++ '.' :: decRepr o3))) ++
          '/' :: decRepr p := by
    simp [renderQuad]
  have hnoslash :
      '/' ∉ decRepr o0 ++ '.' :: (decRepr o1 ++ '.' :: (decRepr o2 ++ '.' :: decRepr o3)) := by
    intro hm
    have hcases : '/' ∈ decRepr o0 ∨ '/' ∈ decRepr o1 ∨ '/' ∈ decRepr o2 ∨
        '/' ∈ decRepr o3 ∨ ('/' : Char) = '.' := by
      simp only [List.mem_append, List.mem_cons] at hm
      tauto
    rcases hcases with h | h | h | h | h
    · exact slash_not_mem_decRepr (by omega) h
    · exact slash_not_mem_decRepr (by omega) h
    · exact slash_not_mem_decRepr (by omega) h
    · exact slash_not_mem_decRepr (by omega) h
    · exact absurd h (by decide)
  have hsplit : splitSep '/' (renderQuad o0 o1 o2 o3 p).data =
      [decRepr o0 ++ '.' :: (decRepr o1 ++ '.' :: (decRepr o2 ++ '.' :: decRepr o3)),
       decRepr p] := by
    rw [hform, splitSep_append _ _ _ hnoslash,
        splitSep_sepFree _ _ (slash_not_mem_decRepr (by omega))]
  rw [parseQuadCidr_eq _ _ _ hsplit,
      splitSep_append _ _ _ (dot_not_mem_decRepr (by omega)),
      splitSep_append _ _ _ (dot_not_mem_decRepr (by omega)),
      splitSep_append _ _ _ (dot_not_mem_decRepr (by omega)),
      splitSep_sepFree _ _ (dot_not_mem_decRepr (by omega))]
  simp only [List.mapM_cons, List.mapM_nil,
    parseNat_decRepr o0 (by omega), parseNat_decRepr o1 (by omega),
    parseNat_decRepr o2 (by omega), parseNat_decRepr o3 (by omega),
    parseNat_decRepr p (by omega), Option.bind_eq_bind, Option.some_bind,
    Option.pure_def]
  rw [if_pos ⟨h0, h1, h2, h3, hp⟩]

theorem recombine (n : Nat) (h : n < 2 ^ 32) :
    ((((n >>> 24) &&& 255) * 256 + ((n >>> 16) &&& 255)) * 256 +
      ((n >>> 8) &&& 255)) * 256 + (n &&& 255) = n := by
  have e255 : (255 : Nat) = 2 ^ 8 - 1 := by norm_num
  have e24 : (n >>> 24) &&& 255 = n / 2 ^ 24 % 2 ^ 8 := by
    rw [Nat.shiftRight_eq_div_pow, e255, Nat.and_pow_two_sub_one_eq_mod]
  have e16 : (n >>> 16) &&& 255 = n / 2 ^ 16 % 2 ^ 8 := by
    rw [Nat.shiftRight_eq_div_pow, e255, Nat.and_pow_two_sub_one_eq_mod]
  have e8 : (n >>> 8) &&& 255 = n / 2 ^ 8 % 2 ^ 8 := by
    rw [Nat.shiftRight_eq_div_pow, e255, Nat.and_pow_two_sub_one_eq_mod]
  have e0 : n &&& 255 = n % 2 ^ 8 := by
    rw [e255, Nat.and_pow_two_sub_one_eq_mod]
  rw [e24, e16, e8, e0]
  norm_num at h ⊢
  omega

theorem land_mod_two_pow_eq_zero (x m k : Nat) (hm : m % 2 ^ k = 0) :
    (x &&& m) % 2 ^ k = 0 := by
  rw [← Nat.and_pow_two_sub_one_eq_mod (x &&& m) k, Nat.land_assoc,
      Nat.and_pow_two_sub_one_eq_mod m k, hm, Nat.and_zero]

theorem mask_mod_eq_zero (p : Nat) (hp : p ≤ 32) :
    ((0xFFFFFFFF <<< (32 - p)) &&& 0xFFFFFFFF) % 2 ^ (32 - p) = 0 := by
  have h1 : (0xFFFFFFFF <<< (32 - p)) &&& 0xFFFFFFFF =
      (0xFFFFFFFF <<< (32 - p)) % 2 ^ 32 := by
    rw [show (0xFFFFFFFF : Nat) = 2 ^ 32 - 1 by norm_num]
    exact Nat.and_pow_two_sub_one_eq_mod _ 32
  rw [h1, Nat.mod_mod_of_dvd _ (pow_dvd_pow 2 (by omega)), Nat.shiftLeft_eq,
      Nat.mul_mod_left]

theorem normalize_hostBitsCleared (ip : String) (p : Nat)
    (o0 o1 o2 o3 : Nat) (rest : List Nat)
    (hip : (splitSep '.' ip.data).mapM parseNatChars = some (o0 :: o1 :: o2 :: o3 :: rest))
    (hp : p ≤ 32) :
    hostBitsCleared (normalize_subnet ip p) = true := by
  unfold normalize_subnet
  rw [hip]
  simp only [if_pos hp]
  set ipint := (o0 <<< 24) ||| (o1 <<< 16) ||| (o2 <<< 8) ||| o3 with hipint
  set mask := (0xFFFFFFFF <<< (32 - p)) &&& 0xFFFFFFFF with hmask
  set net := ipint &&& mask with hnet
  have hmaskle : mask ≤ 0xFFFFFFFF := Nat.and_le_right
  have hnetlt : net < 2 ^ 32 :=
    lt_of_le_of_lt (le_trans Nat.and_le_right hmaskle) (by norm_num)
  rw [hostBitsCleared,
      parseQuadCidr_renderQuad _ _ _ _ _ Nat.and_le_right Nat.and_le_right
        Nat.and_le_right Nat.and_le_right hp,
      recombine net hnetlt]
  simp [hnet, hmask, land_mod_two_pow_eq_zero ipint mask (32 - p) (mask_mod_eq_zero p hp),
    mask_mod_eq_zero p hp]

/-- The shape the IPv4 extraction regex guarantees for an address token:
exactly four dot-separated decimal digit groups. -/
def regexQuad (s : String) : Bool :=
  match (splitSep '.' s.data).mapM parseNatChars with
  | some [_, _, _, _] => true
  | _ => false

/-- A well-formed dotted-quad netmask token: four decimal fields, each
`≤ 255`. -/
def maskQuadOk (s : String) : Bool :=
  match (splitSep '.' s.data).mapM parseNatChars with
  | some [a, b, c, d] =>
    decide (a ≤ 255) && decide (b ≤ 255) && decide (c ≤ 255) && decide (d ≤ 255)
  | _ => false

theorem netmask_le32 (m : String) (hm : maskQuadOk m = true) (p : Nat)
    (hp : netmask_to_cidr m = some p) : p ≤ 32 := by
  unfold maskQuadOk at hm
  unfold netmask_to_cidr at hp
  cases hq : (splitSep '.' m.data).mapM parseNatChars with
  | none => rw [hq] at hp; cases hp
  | some os =>
    rw [hq] at hm hp
    rcases os with - | ⟨a, - | ⟨b, - | ⟨c, - | ⟨d, - | ⟨e, tl⟩⟩⟩⟩⟩ <;>
      simp_all
    have ha := popcount_le_eight a (by omega)
    have hb := popcount_le_eight b (by omega)
    have hc := popcount_le_eight c (by omega)
    have hd := popcount_le_eight d (by omega)
    omega

theorem lineSubnet_hostBits (l : Ipv4Line) (hip : regexQuad l.ip = true)
    (hm : maskQuadOk l.mask = true) (s : String) (hs : lineSubnet l = some s) :
    hostBitsCleared s = true := by
  unfold lineSubnet at hs
  cases hc : netmask_to_cidr l.mask with
  | none => rw [hc] at hs; cases hs
  | some p =>
    rw [hc] at hs
    have hs2 : (if p = 0 then none else some (normalize_subnet l.ip p)) = some s := hs
    by_cases hp0 : p = 0
    · rw [if_pos hp0] at hs2; cases hs2
    · rw [if_neg hp0] at hs2
      cases hs2
      unfold regexQuad at hip
      cases hq : (splitSep '.' l.ip.data).mapM parseNatChars with
      | none => rw [hq] at hip; cases hip
      | some os =>
        rw [hq] at hip
        rcases os with - | ⟨a, - | ⟨b, - | ⟨c, - | ⟨d, - | ⟨e, tl⟩⟩⟩⟩⟩ <;>
          try (cases hip)
        exact normalize_hostBitsCleared l.ip p a b c d [] hq
          (netmask_le32 l.mask hm p hc)

/-- C9 (amended): past the IPv4 extraction boundary every emitted CIDR —
the primary subnet and every element of the public IPv4 list — is in
normalized network-address form (the string parses as `a.b.c.d/p` and its
address value has all host bits below `2^(32-p)` cleared), provided the
match tokens have the dotted-quad shape the extraction regex guarantees and
the netmask fields are octets.  IPv6 subnets, however, are **not**
normalized: every element of the IPv6 list is the raw matched address text
with `/` and the (possibly rewritten) prefix token appended verbatim. -/
theorem extraction_normalized_amended (lines4 : List Ipv4Line) (lines6 : List Ipv6Line)
    (h4 : ∀ l ∈ lines4, regexQuad l.ip = true ∧ maskQuadOk l.mask = true) :
    (∀ s, (extract_ipv4_subnets lines4).1 = some s → hostBitsCleared s = true) ∧
    (∀ s ∈ (extract_ipv4_subnets lines4).2, hostBitsCleared s = true) ∧
    (∀ x ∈ extract_ipv6_subnets lines6, ∃ l, l ∈ lines6 ∧ is_public_ipv6 l.addr = true ∧
      x = l.addr ++ "/" ++ rewritePfx l.pfx) := by
  refine ⟨?_, ?_, ?_⟩
  · intro s hs
    rw [extract_ipv4_subnets, extract_ipv4_foldl] at hs
    simp only at hs
    have hmem := head?_mem hs
    rcases List.mem_filterMap.mp hmem with ⟨l, hl, hf⟩
    have hsub : lineSubnet l = some s := by
      by_cases hsec : l.secondary
      · rw [if_pos hsec] at hf; cases hf
      · rw [if_neg hsec] at hf; exact hf
    exact lineSubnet_hostBits l (h4 l hl).1 (h4 l hl).2 s hsub
  · intro s hs
    rw [extract_ipv4_subnets, extract_ipv4_foldl] at hs
    simp only [List.nil_append] at hs
    rcases List.mem_filterMap.mp hs with ⟨l, hl, hf⟩
    have hsub : lineSubnet l = some s := by
      by_cases hpub : is_public_ipv4 l.ip
      · rw [if_pos hpub] at hf; exact hf
      · rw [if_neg hpub] at hf; cases hf
    exact lineSubnet_hostBits l (h4 l hl).1 (h4 l hl).2 s hsub
  · intro x hx
    rw [extract_ipv6_subnets, extract_ipv6_foldl] at hx
    simp only [List.nil_append] at hx
    rcases List.mem_map.mp hx with ⟨l, hl, hf⟩
    exact ⟨l, (List.mem_filter.mp hl).1, (List.mem_filter.mp hl).2, hf.symm⟩

/-- Witness for `extraction_normalized_amended`: the normalized primary of
a concrete host-address line has its host bits cleared. -/
theorem extraction_normalized_amended_witness :
    hostBitsCleared "10.254.216.0/24" = true := by
  exact (extraction_normalized_amended
    [⟨"10.254.216.1", "255.255.255.0", false⟩] [] (by decide)).1
    "10.254.216.0/24" (by decide)

/-- Counterexample to C9 as stated: the IPv6 line
`ipv6 address 2001:db8::1/64` is emitted as the host/prefix pair
`2001:db8::1/64` — the address value `0x20010db8...0001` is not divisible
by `2^(128-64)`, so host bits are not cleared for IPv6 records. -/
theorem extraction_normalized_counterexample :
    extract_ipv6_subnets [⟨"2001:db8::1", "64"⟩] = ["2001:db8::1/64"] ∧
    parseIPv6 "2001:db8::1" = some 0x20010db8000000000000000000000001 ∧
    (0x20010db8000000000000000000000001 : Nat) % 2 ^ (128 - 64) = 1 := by
  refine ⟨by decide, by decide, by norm_num⟩

/-! ## Vendor selection lemmas (claim C7) -/

theorem tokMatch_append_nl : ∀ (t : List RAtom) (xs : List Char),
    (∀ a ∈ t, atomMatches a '\n' = false) →
    tokMatchAt t (xs ++ ['\n']) = tokMatchAt t xs := by
  intro t
  induction t with
  | nil => intro xs _; rfl
  | cons a as ih =>
    intro xs hnl
    cases xs with
    | nil =>
      have ha := hnl a (List.mem_cons_self a as)
      simp [tokMatchAt, ha]
    | cons x xs' =>
      have has : ∀ b ∈ as, atomMatches b '\n' = false :=
        fun b hb => hnl b (List.mem_cons_of_mem a hb)
      simp [tokMatchAt, ih xs' has]

theorem tokInChars_cons (t : List RAtom) (x : Char) (l : List Char) :
    tokInChars t (x :: l) = (tokMatchAt t (x :: l) || tokInChars t l) := by
  simp [tokInChars]

theorem tokIn_append_nl (t : List RAtom)
    (hnl : ∀ a ∈ t, atomMatches a '\n' = false) :
    ∀ xs : List Char, tokInChars t (xs ++ ['\n']) = tokInChars t xs := by
  intro xs
  induction xs with
  | nil =>
    cases t with
    | nil => rfl
    | cons a as =>
      have ha := hnl a (List.mem_cons_self a as)
      simp [tokInChars, ha, tokMatchAt]
  | cons x xs' ih =>
    rw [List.cons_append, tokInChars_cons, ih,
        show x :: (xs' ++ ['\n']) = (x :: xs') ++ ['\n'] from rfl,
        tokMatch_append_nl t (x :: xs') hnl, ← tokInChars_cons]

theorem list_any_congr {α : Type} (l : List α) (f g : α → Bool)
    (h : ∀ x ∈ l, f x = g x) : l.any f = l.any g := by
  induction l with
  | nil => rfl
  | cons a t ih =>
    simp only [List.any_cons, h a (List.mem_cons_self a t),
      ih (fun x hx => h x (List.mem_cons_of_mem a hx))]

theorem reMatch_eq_contains (alts : List (List RAtom)) (s : String)
    (hnl : (stripTrailNL s.data).all (· != '\n') = true)
    (htoks : ∀ t ∈ alts, ∀ a ∈ t, atomMatches a '\n' = false) :
    reMatchAnchored alts s = alts.any (fun t => tokInChars t s.data) := by
  rw [reMatchAnchored]
  simp only [hnl, Bool.true_and]
  by_cases hlast : s.data.getLast? = some '\n'
  · have hne : s.data ≠ [] := by
      intro he; rw [he] at hlast; cases hlast
    have hdecomp : s.data = s.data.dropLast ++ ['\n'] := by
      have hgl : s.data.getLast hne = '\n' := by
        have := List.getLast?_eq_getLast s.data hne
        rw [this] at hlast
        exact Option.some.inj hlast
      conv_lhs => rw [← List.dropLast_append_getLast hne]
      rw [hgl]
    have hstrip : stripTrailNL s.data = s.data.dropLast := by
      rw [stripTrailNL, if_pos hlast]
    rw [hstrip]
    refine list_any_congr alts _ _ (fun t ht => ?_)
    conv_rhs => rw [hdecomp]
    exact (tokIn_append_nl t (htoks t ht) s.data.dropLast).symm
  · rw [show stripTrailNL s.data = s.data from by rw [stripTrailNL, if_neg hlast]]

/-- C7 (amended): for every hostname whose characters — after stripping at
most one trailing newline — contain no newline, the vendor/interface
cascade agrees exactly with the specification's priority rule of plain
case-insensitive token containment (`CCAP1\d\d`/`CBR\d\d` → Casa 100G with
`ip-bundle 1`, else `CCAPV\d\d\d` → Commscope EVO with `ip-bundle 1`, else
`CCAP0\d\d`/`DBR\d\d` → Commscope E6000 with `cable-mac 1.0`, else the
generic IOS dialect with `Bundle1`); and the selection is total: every
hostname string whatsoever yields one of the four dialect pairs.  (An
embedded newline can hide a token from `re.match`, so the containment
reading fails there — see the counterexample.) -/
theorem vendor_selection_amended :
    (∀ s : String, (stripTrailNL s.data).all (· != '\n') = true →
      selectVendor s = claimSelector s) ∧
    (∀ s : String,
      selectVendor s = ("Casa 100G", "ip-bundle 1") ∨
      selectVendor s = ("Commscope EVO", "ip-bundle 1") ∨
      selectVendor s = ("Commscope E6000", "cable-mac 1.0") ∨
      selectVendor s = ("Cisco IOS/IOS-XE", "Bundle1")) := by
  constructor
  · intro s hnl
    have h1 := reMatch_eq_contains [tokCCAP1, tokCBR] s hnl (by decide)
    have h2 := reMatch_eq_contains [tokCCAPV] s hnl (by decide)
    have h3 := reMatch_eq_contains [tokCCAP0, tokDBR] s hnl (by decide)
    rw [selectVendor, claimSelector, h1, h2, h3]
    simp only [List.any_cons, List.any_nil, Bool.or_false]
  · intro s
    rw [selectVendor]
    split_ifs <;> simp

/-- Witness for `vendor_selection_amended` at the concrete hostnames of the
specification's examples. -/
theorem vendor_selection_amended_witness :
    selectVendor "DBR07" = claimSelector "DBR07" ∧
    selectVendor "DBR07" = ("Commscope E6000", "cable-mac 1.0") ∧
    selectVendor "ZNB-CCAP105" = claimSelector "ZNB-CCAP105" := by
  refine ⟨vendor_selection_amended.1 "DBR07" (by decide), by decide,
    vendor_selection_amended.1 "ZNB-CCAP105" (by decide)⟩

/-- Counterexample to C7 as stated: the hostname `"CCAP105\nX"` contains
`CCAP105` (so the claimed containment rule selects Casa 100G), but
`re.match(r'^.*(CCAP1\d{2}|CBR\d{2}).*$', ...)` cannot match across the
embedded newline, so the code falls through to the generic IOS dialect. -/
theorem vendor_selection_counterexample :
    selectVendor "CCAP105\nX" = ("Cisco IOS/IOS-XE", "Bundle1") ∧
    claimSelector "CCAP105\nX" = ("Casa 100G", "ip-bundle 1") := by
  decide

/-! ## Characterization of the string-prefix IPv4 classifier (claim C5) -/

theorem decRepr_shape (n : Nat) (hn : n ≤ 255) :
    (n < 10 ∧ decRepr n = [digitCh n]) ∨
    (10 ≤ n ∧ n < 100 ∧ decRepr n = [digitCh (n / 10), digitCh (n % 10)]) ∨
    (100 ≤ n ∧ decRepr n = [digitCh (n / 100), digitCh (n / 10 % 10), digitCh (n % 10)]) := by
  by_cases h1 : n < 10
  · exact Or.inl ⟨h1, decRepr_lt10 n h1⟩
  by_cases h2 : n < 100
  · exact Or.inr (Or.inl ⟨by omega, h2, decRepr_two n (by omega) h2⟩)
  · exact Or.inr (Or.inr ⟨by omega, decRepr_three n (by omega) (by omega)⟩)


theorem takeWhile_to_slash (xs ys : List Char) (h : '/' ∉ xs) :
    (xs ++ '/' :: ys).takeWhile (· ≠ '/') = xs := by
  induction xs with
  | nil => simp [List.takeWhile]
  | cons c cs ih =>
    have hc : c ≠ '/' := fun e => h (e ▸ List.mem_cons_self c cs)
    have hcs : '/' ∉ cs := fun m => h (List.mem_cons_of_mem c m)
    rw [List.cons_append, List.takeWhile_cons, if_pos (decide_eq_true hc), ih hcs]

theorem isPrefixOf_dot_split (P Q : List Char) (hP : '.' ∉ P) :
    ∀ (xs ys : List Char), '.' ∉ xs →
    ((P ++ '.' :: Q).isPrefixOf (xs ++ '.' :: ys) = true ↔
      (P = xs ∧ Q.isPrefixOf ys = true)) := by
  induction P with
  | nil =>
    intro xs ys hxs
    cases xs with
    | nil => simp [List.isPrefixOf]
    | cons x xs' =>
      have hx : x ≠ '.' := fun e => hxs (e ▸ List.mem_cons_self x xs')
      have hbx : (('.' : Char) == x) = false :=
        beq_eq_false_iff_ne.mpr (fun e => hx (Eq.symm e))
      simp [List.isPrefixOf, hbx]
  | cons p P' ih =>
    intro xs ys hxs
    have hp : p ≠ '.' := fun e => hP (e ▸ List.mem_cons_self p P')
    have hP' : '.' ∉ P' := fun m => hP (List.mem_cons_of_mem p m)
    cases xs with
    | nil =>
      have hbp : ((p : Char) == '.') = false := beq_eq_false_iff_ne.mpr hp
      simp [List.isPrefixOf, hbp]
    | cons x xs' =>
      have hxs' : '.' ∉ xs' := fun m => hxs (List.mem_cons_of_mem x m)
      simp only [List.cons_append, List.isPrefixOf, Bool.and_eq_true, beq_iff_eq,
        List.append_eq, ih hP' xs' ys hxs', List.cons.injEq]
      tauto

set_option maxRecDepth 4000 in
theorem decRepr_eq_ten : ∀ n, n < 256 → ((decRepr n = ['1', '0']) ↔ n = 10) := by decide

set_option maxRecDepth 4000 in
theorem decRepr_eq_192 : ∀ n, n < 256 → ((decRepr n = ['1', '9', '2']) ↔ n = 192) := by
  decide

set_option maxRecDepth 4000 in
theorem decRepr_eq_198 : ∀ n, n < 256 → ((decRepr n = ['1', '9', '8']) ↔ n = 198) := by
  decide

set_option maxRecDepth 4000 in
theorem decRepr_eq_168 : ∀ n, n < 256 → ((decRepr n = ['1', '6', '8']) ↔ n = 168) := by
  decide

set_option maxRecDepth 4000 in
theorem decRepr_eq_18 : ∀ n, n < 256 → ((decRepr n = ['1', '8']) ↔ n = 18) := by decide

set_option maxRecDepth 4000 in
theorem digitCh_eq_iff :
    ∀ m, m < 10 → ∀ k, k < 10 → ((digitCh m = digitCh k) ↔ m = k) := by decide

set_option maxRecDepth 4000 in
theorem class172_two_digits :
    ∀ b, b < 100 → 10 ≤ b →
      class172 (digitCh (b / 10)) (digitCh (b % 10)) = decide (16 ≤ b ∧ b ≤ 31) := by
  decide

theorem class172_dot : ∀ m, m < 10 → class172 (digitCh m) '.' = false := by decide

theorem digitCh_ne_dot_beq : ∀ m, m < 10 → ((digitCh m == '.') = false) := by decide

set_option maxRecDepth 4000 in
theorem threeDigitEq172 : ∀ a, 100 ≤ a → a < 256 →
    ((digitCh (a / 100) = '1' ∧ digitCh (a / 10 % 10) = '7' ∧ digitCh (a % 10) = '2') ↔
      a = 172) := by
  decide

theorem some_beq_some (x y : Char) : ((some x : Option Char) == some y) = (x == y) := rfl

theorem matches172_quad (a b c d : Nat)
    (ha : a ≤ 255) (hb : b ≤ 255) :
    matches172 (decRepr a ++ '.' :: (decRepr b ++ '.' :: (decRepr c ++ '.' :: decRepr d))) =
      decide (a = 172 ∧ 16 ≤ b ∧ b ≤ 31) := by
  rcases decRepr_shape a ha with ⟨ha1, hea⟩ | ⟨ha1, ha2, hea⟩ | ⟨ha1, hea⟩
  · rw [hea, decide_eq_false (fun hcon => by omega)]
    simp [matches172, List.get?, some_beq_some,
      show (('.' : Char) == '7') = false from rfl]
  · rw [hea, decide_eq_false (fun hcon => by omega)]
    simp [matches172, List.get?, some_beq_some,
      show (('.' : Char) == '2') = false from rfl]
  · rw [hea]
    rcases decRepr_shape b hb with ⟨hb1, heb⟩ | ⟨hb1, hb2, heb⟩ | ⟨hb1, heb⟩
    · rw [heb, decide_eq_false (fun hcon => by omega)]
      simp [matches172, List.get?, some_beq_some, class172_dot b hb1]
    · rw [heb]
      simp only [List.cons_append, List.append_eq, matches172, List.get?, some_beq_some]
      rw [class172_two_digits b hb2 hb1, Bool.eq_iff_iff]
      simp only [Bool.and_eq_true, beq_iff_eq, decide_eq_true_iff]
      have h3 := threeDigitEq172 a ha1 (by omega)
      tauto
    · rw [heb, decide_eq_false (fun hcon => by omega)]
      simp [matches172, List.get?, some_beq_some, digitCh_ne_dot_beq (b % 10) (by omega)]

set_option maxHeartbeats 1000000 in
/-- C5 (amended): for every dotted-quad CIDR `a.b.c.d/p`, the DHCP-facing
classifier `is_public_ipv4` returns false exactly when the address lies in
10.0.0.0/8, 172.16.0.0/12, 192.168.0.0/16 or **198.18.0.0/16** — not the
full 198.18.0.0/15 benchmarking range: the code tests the string prefix
`"198.18."`, so every 198.19.x.x address is classified public (see the
counterexample); no further validation of global allocation is performed. -/
theorem is_public_ipv4_amended (a b c d p : Nat)
    (ha : a ≤ 255) (hb : b ≤ 255) (hc : c ≤ 255) (hd : d ≤ 255) (_hp : p ≤ 32) :
    is_public_ipv4 (renderQuad a b c d p) = false ↔
      (a = 10 ∨ (a = 172 ∧ 16 ≤ b ∧ b ≤ 31) ∨ (a = 192 ∧ b = 168) ∨
       (a = 198 ∧ b = 18)) := by
  have hform : (renderQuad a b c d p).data =
      (decRepr a ++ '.' :: (decRepr b ++ '.' :: (decRepr c ++ '.' :: decRepr d))) ++
        '/' :: decRepr p := by
    simp [renderQuad]
  have hnoslash :
      '/' ∉ decRepr a ++ '.' :: (decRepr b ++ '.' :: (decRepr c ++ '.' :: decRepr d)) := by
    intro hm
    have hcases : '/' ∈ decRepr a ∨ '/' ∈ decRepr b ∨ '/' ∈ decRepr c ∨
        '/' ∈ decRepr d ∨ ('/' : Char) = '.' := by
      simp only [List.mem_append, List.mem_cons] at hm
      tauto
    rcases hcases with h | h | h | h | h
    · exact slash_not_mem_decRepr (by omega) h
    · exact slash_not_mem_decRepr (by omega) h
    · exact slash_not_mem_decRepr (by omega) h
    · exact slash_not_mem_decRepr (by omega) h
    · exact absurd h (by decide)
  have h10 : ((['1', '0', '.'] : List Char).isPrefixOf
      (decRepr a ++ '.' :: (decRepr b ++ '.' :: (decRepr c ++ '.' :: decRepr d))) = true) ↔
      a = 10 := by
    have hs := isPrefixOf_dot_split ['1', '0'] [] (by decide) (decRepr a)
      (decRepr b ++ '.' :: (decRepr c ++ '.' :: decRepr d)) (dot_not_mem_decRepr (by omega))
    constructor
    · intro h
      exact (decRepr_eq_ten a (by omega)).mp (hs.mp h).1.symm
    · intro h
      exact hs.mpr ⟨((decRepr_eq_ten a (by omega)).mpr h).symm, by simp [List.isPrefixOf]⟩
  have h192 : ((['1', '9', '2', '.', '1', '6', '8', '.'] : List Char).isPrefixOf
      (decRepr a ++ '.' :: (decRepr b ++ '.' :: (decRepr c ++ '.' :: decRepr d))) = true) ↔
      (a = 192 ∧ b = 168) := by
    have hs1 := isPrefixOf_dot_split ['1', '9', '2'] ['1', '6', '8', '.'] (by decide)
      (decRepr a) (decRepr b ++ '.' :: (decRepr c ++ '.' :: decRepr d))
      (dot_not_mem_decRepr (by omega))
    have hs2 := isPrefixOf_dot_split ['1', '6', '8'] [] (by decide) (decRepr b)
      (decRepr c ++ '.' :: decRepr d) (dot_not_mem_decRepr (by omega))
    constructor
    · intro h
      obtain ⟨hea, hrest⟩ := hs1.mp h
      obtain ⟨heb, -⟩ := hs2.mp hrest
      exact ⟨(decRepr_eq_192 a (by omega)).mp hea.symm,
             (decRepr_eq_168 b (by omega)).mp heb.symm⟩
    · rintro ⟨hea, heb⟩
      exact hs1.mpr ⟨((decRepr_eq_192 a (by omega)).mpr hea).symm,
        hs2.mpr ⟨((decRepr_eq_168 b (by omega)).mpr heb).symm, by simp [List.isPrefixOf]⟩⟩
  have h198 : ((['1', '9', '8', '.', '1', '8', '.'] : List Char).isPrefixOf
      (decRepr a ++ '.' :: (decRepr b ++ '.' :: (decRepr c ++ '.' :: decRepr d))) = true) ↔
      (a = 198 ∧ b = 18) := by
    have hs1 := isPrefixOf_dot_split ['1', '9', '8'] ['1', '8', '.'] (by decide)
      (decRepr a) (decRepr b ++ '.' :: (decRepr c ++ '.' :: decRepr d))
      (dot_not_mem_decRepr (by omega))
    have hs2 := isPrefixOf_dot_split ['1', '8'] [] (by decide) (decRepr b)
      (decRepr c ++ '.' :: decRepr d) (dot_not_mem_decRepr (by omega))
    constructor
    · intro h
      obtain ⟨hea, hrest⟩ := hs1.mp h
      obtain ⟨heb, -⟩ := hs2.mp hrest
      exact ⟨(decRepr_eq_198 a (by omega)).mp hea.symm,
             (decRepr_eq_18 b (by omega)).mp heb.symm⟩
    · rintro ⟨hea, heb⟩
      exact hs1.mpr ⟨((decRepr_eq_198 a (by omega)).mpr hea).symm,
        hs2.mpr ⟨((decRepr_eq_18 b (by omega)).mpr heb).symm, by simp [List.isPrefixOf]⟩⟩
  have h172 : (matches172
      (decRepr a ++ '.' :: (decRepr b ++ '.' :: (decRepr c ++ '.' :: decRepr d))) = true) ↔
      (a = 172 ∧ 16 ≤ b ∧ b ≤ 31) := by
    rw [matches172_quad a b c d ha hb]
    exact decide_eq_true_iff
  rw [is_public_ipv4, is_public_ipv4_chars, hform, takeWhile_to_slash _ _ hnoslash]
  simp only [Bool.not_eq_false', Bool.or_eq_true]
  rw [h10, h172, h192, h198]
  constructor
  · rintro (((h | h) | h) | h)
    · exact Or.inl h
    · exact Or.inr (Or.inl h)
    · exact Or.inr (Or.inr (Or.inl h))
    · exact Or.inr (Or.inr (Or.inr h))
  · rintro (h | h | h | h)
    · exact Or.inl (Or.inl (Or.inl h))
    · exact Or.inl (Or.inl (Or.inr h))
    · exact Or.inl (Or.inr h)
    · exact Or.inr h

/-- Witness for `is_public_ipv4_amended`: 10.0.0.1/8 is classified private,
and 8.8.8.8/24 public, through the characterization. -/
theorem is_public_ipv4_amended_witness :
    is_public_ipv4 (renderQuad 10 0 0 1 8) = false ∧
    is_public_ipv4 (renderQuad 8 8 8 8 24) = true := by
  constructor
  · exact (is_public_ipv4_amended 10 0 0 1 8 (by decide) (by decide) (by decide)
      (by decide) (by decide)).mpr (Or.inl rfl)
  · refine Bool.ne_false_iff.mp (fun hf => ?_)
    have hd := (is_public_ipv4_amended 8 8 8 8 24 (by decide) (by decide) (by decide)
      (by decide) (by decide)).mp hf
    revert hd
    decide

/-- Counterexample to C5 as stated: `198.19.1.1` lies inside the
198.18.0.0/15 benchmarking range, yet `is_public_ipv4` classifies it as
public — the code's `startswith('198.18.')` test covers only 198.18.0.0/16. -/
theorem is_public_ipv4_counterexample :
    renderQuad 198 19 1 1 24 = "198.19.1.1/24" ∧
    is_public_ipv4 "198.19.1.1/24" = true := by
  decide

/-- C10 (amended): the config-extraction classifier
(`subnet_utils.is_public_ipv4`) returns false on **every** input its
`ipaddress` parse rejects; the DHCP-facing classifier
(`dhcp_database.is_public_ipv4`) performs no parse at all — it never
raises, and on unparseable input its answer is decided purely by the
private string-prefix tests: an unparseable string not starting with a
private prefix is "assumed public" (`"complete-garbage"` → true), but an
unparseable string that happens to start with one is classified not public
(`"10.banana"` → false), so "returns true on every unparseable input" does
not hold.  Both embeddings are total functions: neither classifier raises. -/
theorem classifier_fallback_amended (s : String)
    (h : parseIPv4Network s = none) :
    utils_is_public_ipv4 s = false ∧
    is_public_ipv4 "complete-garbage" = true ∧
    is_public_ipv4 "10.banana" = false := by
  refine ⟨?_, by decide, by decide⟩
  rw [utils_is_public_ipv4, h]

/-- Witness for `classifier_fallback_amended` at the unparseable input
`"not-an-ip"`. -/
theorem classifier_fallback_amended_witness :
    utils_is_public_ipv4 "not-an-ip" = false :=
  (classifier_fallback_amended "not-an-ip" (by decide)).1

/-- Counterexample to C10 as stated: `"10.banana"` fails to parse as an
IPv4 network, yet the DHCP-facing classifier returns false (its
`startswith('10.')` test fires), not the claimed "assume public" true. -/
theorem classifier_fallback_counterexample :
    parseIPv4Network "10.banana" = none ∧
    is_public_ipv4 "10.banana" = false ∧
    utils_is_public_ipv4 "10.banana" = false := by
  decide
